import Mathlib

/-!
Verification development for the Storage Portability Layer of a task/focus
productivity service.  The layer consists of three database adapters (embedded
SQLite, MySQL, PostgreSQL) exposing a uniform D1-style interface, a value
coercion module, a regex-based migration dialect translator, and a migration
runner with a bookkeeping table.

SQL text is modelled as a list of characters; the regex-based text rewrites of
the translator are embedded as character-level scanners that mirror the exact
JavaScript regular expressions of the source (case-insensitive literals, the
whitespace class, the word-character class, greedy character classes such as
everything-but-a-closing-parenthesis).  Stateful code (the migration runner,
batch dispatch) is embedded as explicit state passing.  Fallible code is
embedded with Except; the JavaScript environment (driver replies, the Date
constructor) is a parameter of the relevant definitions.
-/

namespace FF

/-- SQL and parameter text, modelled as a list of characters. -/
abbrev Str := List Char

/-- Lower-case an ASCII letter; other characters are unchanged.  Models the
case folding used by the case-insensitive regex flag on the ASCII SQL text
of the repository. -/
def lowerC (c : Char) : Char :=
  if 'A' ≤ c ∧ c ≤ 'Z' then Char.ofNat (c.toNat + 32) else c

/-- Character class of the JavaScript regex word class. -/
def isWordC (c : Char) : Bool :=
  ('a' ≤ c ∧ c ≤ 'z') ∨ ('A' ≤ c ∧ c ≤ 'Z') ∨ ('0' ≤ c ∧ c ≤ '9') ∨ c = '_'

/-- Character class of the JavaScript regex whitespace class, restricted to the
whitespace characters that occur in the repository's SQL text. -/
def isSpaceC (c : Char) : Bool :=
  c = ' ' ∨ c = '\t' ∨ c = '\n' ∨ c = '\r'

/-- Single-quote character (written by code point to keep the text plain). -/
def squote : Char := Char.ofNat 39

/-- Backtick character (written by code point to keep the text plain). -/
def btick : Char := Char.ofNat 96

/-- Match a case-insensitive literal pattern at the head of the input and
return the rest of the input. -/
def litCI : Str → Str → Option Str
  | [], s => some s
  | _ :: _, [] => none
  | p :: ps, c :: cs => if lowerC c = lowerC p then litCI ps cs else none

/-- Match a case-sensitive literal pattern at the head of the input and
return the rest of the input. -/
def litCS : Str → Str → Option Str
  | [], s => some s
  | _ :: _, [] => none
  | p :: ps, c :: cs => if c = p then litCS ps cs else none

/-- Greedily consume one or more whitespace characters. -/
def ws1 : Str → Option Str
  | [] => none
  | c :: cs => if isSpaceC c then some (cs.dropWhile isSpaceC) else none

/-- Greedily consume zero or more whitespace characters. -/
def ws0 (s : Str) : Str := s.dropWhile isSpaceC

/-- Maximal word-character prefix and the rest. -/
def wordSplit : Str → Str × Str
  | [] => ([], [])
  | c :: cs =>
    if isWordC c then
      match wordSplit cs with
      | (w, r) => (c :: w, r)
    else ([], c :: cs)

/-- Greedily consume one or more word characters, returning the captured word
and the rest. -/
def word1 (s : Str) : Option (Str × Str) :=
  match wordSplit s with
  | ([], _) => none
  | (w, r) => some (w, r)

/-- Maximal whitespace prefix and the rest. -/
def wsTake : Str → Str × Str
  | [] => ([], [])
  | c :: cs =>
    if isSpaceC c then
      match wsTake cs with
      | (w, r) => (c :: w, r)
    else ([], c :: cs)

/-- Take characters up to (excluding) the first occurrence of a given
character; also return the rest starting at that character.  Returns none
when the character does not occur. -/
def takeUntilChar (stop : Char) : Str → Option (Str × Str)
  | [] => none
  | c :: cs =>
    if c = stop then some ([], c :: cs)
    else (takeUntilChar stop cs).map fun p => (c :: p.1, p.2)

/-- JavaScript String.prototype.trim on our character lists. -/
def trimStr (s : Str) : Str :=
  ((s.dropWhile isSpaceC).reverse.dropWhile isSpaceC).reverse

/-- JavaScript String.prototype.split on a separator character. -/
def splitOnChar (sep : Char) : Str → List Str
  | [] => [[]]
  | c :: cs =>
    let rest := splitOnChar sep cs
    if c = sep then [] :: rest
    else (c :: rest.headI) :: rest.tail

/-- Whether the case-insensitive literal occurs anywhere in the input. -/
def containsCI (pat : Str) : Str → Bool
  | [] => (litCI pat []).isSome
  | c :: cs => (litCI pat (c :: cs)).isSome || containsCI pat cs

/-- First position (as a suffix) where a matcher succeeds, scanning left to
right.  Mirrors an unanchored JavaScript regex search. -/
def firstHit (try1 : Str → Option α) : Str → Option α
  | [] => try1 []
  | c :: cs =>
    match try1 (c :: cs) with
    | some a => some a
    | none => firstHit try1 cs

/-- Fuel-driven global replace.  `try1` returns the replacement text together
with the input remaining after the matched region; scanning continues after
the match, exactly as a JavaScript global regex replace scans the source
string.  Fuel bounds the number of steps; every pattern used in this
development consumes at least one character on a match, so an initial fuel of
the input length is always sufficient. -/
def replaceScan (try1 : Str → Option (Str × Str)) : Nat → Str → Str
  | 0, s => s
  | _ + 1, [] => []
  | fuel + 1, c :: cs =>
    match try1 (c :: cs) with
    | some (repl, rest) => repl ++ replaceScan try1 fuel rest
    | none => c :: replaceScan try1 fuel cs

/-- Global replace with sufficient fuel. -/
def replaceAll (try1 : Str → Option (Str × Str)) (s : Str) : Str :=
  replaceScan try1 s.length s

/-- Replace the first match only (JavaScript replace without the global
flag). -/
def replaceFirst (try1 : Str → Option (Str × Str)) : Str → Str
  | [] =>
    match try1 [] with
    | some (repl, rest) => repl ++ rest
    | none => []
  | c :: cs =>
    match try1 (c :: cs) with
    | some (repl, rest) => repl ++ rest
    | none => c :: replaceFirst try1 cs

/-! ## Value model

JavaScript runtime values that flow through the adapters' bound parameter
lists.  Finite numbers are modelled as integers (the repository only binds
integral numbers); NaN is a distinguished constructor so that the
`typeof v === "number" && isNaN(v)` test of the MySQL adapter is expressible.
A JavaScript Date object is modelled by the tuple of its local-time getter
values; an Invalid Date (whose time value is NaN) is `date none`. -/

/-- The local-time components of a JavaScript Date, as returned by
getFullYear, getMonth (zero-based), getDate, getHours, getMinutes,
getSeconds. -/
structure DateParts where
  year : Nat
  month0 : Nat
  day : Nat
  hour : Nat
  minute : Nat
  second : Nat
deriving DecidableEq, Repr

/-- JavaScript values bound as statement parameters. -/
inductive JSVal
  | jsNull
  | undef
  | nan
  | num (n : Int)
  | str (s : Str)
  | date (t : Option DateParts)
  | bool (b : Bool)
deriving DecidableEq, Repr

/-- The environment's Date constructor applied to a string, composed with the
local-time getters: `none` models an Invalid Date result.  The adapters are
parameterised over this function because `new Date(string)` semantics depend
on the host timezone. -/
abbrev JsDateOf := Str → Option DateParts

/-- Decimal digit class. -/
def isDigitC (c : Char) : Bool := '0' ≤ c ∧ c ≤ '9'

/-- Decimal rendering of a natural number (JavaScript String(n) for the
non-negative integers produced by the date getters). -/
def natStrGo : Nat → Nat → Str → Str
  | 0, _, acc => acc
  | fuel + 1, n, acc =>
    let d := Char.ofNat (n % 10 + 48)
    if n < 10 then d :: acc else natStrGo fuel (n / 10) (d :: acc)

/-- Decimal rendering of a natural number. -/
def natStr (n : Nat) : Str := natStrGo (n + 1) n []

/-- JavaScript String(n).padStart(2, "0"). -/
def pad2 (n : Nat) : Str := if n < 10 then '0' :: natStr n else natStr n

/-- The MySQL datetime literal built by toMySQLDateTime from the local-time
parts of a valid date: YYYY-MM-DD HH:MM:SS. -/
def formatDateTime (d : DateParts) : Str :=
  natStr d.year ++ '-' :: pad2 (d.month0 + 1) ++ '-' :: pad2 d.day
    ++ ' ' :: pad2 d.hour ++ ':' :: pad2 d.minute ++ ':' :: pad2 d.second

/-- Error message thrown by toMySQLDateTime on an invalid date (the source
interpolates the offending value after this text; the claims never inspect
the message). -/
def invalidDateMsg : Str := "Invalid date".data

/-- toMySQLDateTime applied to a Date object: formats a valid date, throws on
an Invalid Date (isNaN(d.getTime())). -/
def toMySQLDateTimeOfDate : Option DateParts → Except Str Str
  | none => .error invalidDateMsg
  | some d => .ok (formatDateTime d)

/-- toMySQLDateTime applied to a string: parses it with the environment's
Date constructor, then formats; throws when the parse yields an Invalid
Date. -/
def toMySQLDateTimeOfStr (jd : JsDateOf) (s : Str) : Except Str Str :=
  toMySQLDateTimeOfDate (jd s)

/-- Consume exactly n decimal digits. -/
def digitsN : Nat → Str → Option Str
  | 0, s => some s
  | _ + 1, [] => none
  | n + 1, c :: cs => if isDigitC c then digitsN n cs else none

/-- Test for the regex matching an ISO 8601 date-time prefix:
four digits, dash, two digits, dash, two digits, letter T, two digits, colon,
two digits, colon, two digits; anything may follow. -/
def matchIsoDateTimePre (s : Str) : Bool :=
  ((digitsN 4 s).bind fun r1 =>
   (litCS ['-'] r1).bind fun r2 =>
   (digitsN 2 r2).bind fun r3 =>
   (litCS ['-'] r3).bind fun r4 =>
   (digitsN 2 r4).bind fun r5 =>
   (litCS ['T'] r5).bind fun r6 =>
   (digitsN 2 r6).bind fun r7 =>
   (litCS [':'] r7).bind fun r8 =>
   (digitsN 2 r8).bind fun r9 =>
   (litCS [':'] r9).bind fun r10 =>
   digitsN 2 r10).isSome

/-- Test for the anchored date-only regex: four digits, dash, two digits,
dash, two digits, end of string. -/
def matchDateOnly (s : Str) : Bool :=
  (((digitsN 4 s).bind fun r1 =>
    (litCS ['-'] r1).bind fun r2 =>
    (digitsN 2 r2).bind fun r3 =>
    (litCS ['-'] r3).bind fun r4 =>
    digitsN 2 r4) matches some [])

/-- The per-value conversion callback of convertDatesForMySQL: null and
undefined are skipped; Date objects are formatted (an Invalid Date throws,
uncaught); strings with an ISO date-time prefix are converted, with a parse
failure caught locally and the original string returned; date-only strings
and every other value pass through unchanged. -/
def convertOne (jd : JsDateOf) : JSVal → Except Str JSVal
  | .jsNull => .ok .jsNull
  | .undef => .ok .undef
  | .date t => (toMySQLDateTimeOfDate t).map .str
  | .str s =>
    if matchIsoDateTimePre s then
      match toMySQLDateTimeOfStr jd s with
      | .ok out => .ok (.str out)
      | .error _ => .ok (.str s)
    else if matchDateOnly s then .ok (.str s)
    else .ok (.str s)
  | v => .ok v

/-- convertDatesForMySQL: map the conversion callback over the bound values
in order; an uncaught throw from the callback aborts the whole map. -/
def convertDatesForMySQL (jd : JsDateOf) : List JSVal → Except Str (List JSVal)
  | [] => .ok []
  | v :: vs =>
    match convertOne jd v with
    | .error e => .error e
    | .ok w =>
      match convertDatesForMySQL jd vs with
      | .error e => .error e
      | .ok ws => .ok (w :: ws)

/-- The NaN / undefined safety net of the bound MySQL statement constructor:
a NaN number becomes 0 and undefined becomes null; everything else is kept. -/
def sanitizeMysqlParam : JSVal → JSVal
  | .nan => .num 0
  | .undef => .jsNull
  | v => v

/-- The complete value pipeline of the bound MySQL statement constructor:
date conversion first, then the NaN / undefined safety net. -/
def mysqlBindValues (jd : JsDateOf) (vs : List JSVal) : Except Str (List JSVal) :=
  (convertDatesForMySQL jd vs).map (List.map sanitizeMysqlParam)

/-- The bound PostgreSQL statement constructor stores the bound values
verbatim: no coercion is applied before dispatch. -/
def postgresBindValues (vs : List JSVal) : List JSVal := vs

/-- The bound SQLite statement constructor stores the bound values verbatim:
no coercion is applied before dispatch. -/
def sqliteBindValues (vs : List JSVal) : List JSVal := vs

/-- Read exactly n decimal digits as a number. -/
def readDigitsN : Nat → Nat → Str → Option (Nat × Str)
  | 0, acc, s => some (acc, s)
  | _ + 1, _, [] => none
  | n + 1, acc, c :: cs =>
    if isDigitC c then readDigitsN n (acc * 10 + (c.toNat - 48)) cs else none

/-- Gregorian leap year test. -/
def isLeap (y : Nat) : Bool := (y % 4 = 0 ∧ y % 100 ≠ 0) ∨ y % 400 = 0

/-- Days in a month (1-based month). -/
def daysInMonth (y m : Nat) : Nat :=
  if m = 2 then (if isLeap y then 29 else 28)
  else if m = 4 ∨ m = 6 ∨ m = 9 ∨ m = 11 then 30
  else 31

/-- Trailing part allowed after the seconds of an ISO string: nothing, Z, or
a fractional-seconds part optionally followed by Z. -/
def isoTail : Str → Bool
  | [] => true
  | c :: cs =>
    if c = 'Z' then cs.isEmpty
    else if c = '.' then
      match cs.span isDigitC with
      | ([], _) => false
      | (_, rest) => rest.isEmpty || rest = ['Z']
    else false

/-- Range validation of parsed ISO components. -/
def isoChecks (y mo dy h mi se : Nat) (tail : Str) : Bool :=
  isoTail tail && decide (1 ≤ mo) && decide (mo ≤ 12) && decide (1 ≤ dy)
    && decide (dy ≤ daysInMonth y mo) && decide (h ≤ 23) && decide (mi ≤ 59)
    && decide (se ≤ 59)

/-- The calendar-date half of the ISO parse: year, month, day, and the rest
after the letter T. -/
def isoParseYmd (s : Str) : Option (Nat × Nat × Nat × Str) := do
  let p1 ← readDigitsN 4 0 s
  let r2 ← litCS ['-'] p1.2
  let p3 ← readDigitsN 2 0 r2
  let r4 ← litCS ['-'] p3.2
  let p5 ← readDigitsN 2 0 r4
  let r6 ← litCS ['T'] p5.2
  some (p1.1, p3.1, p5.1, r6)

/-- The time-of-day half of the ISO parse: hour, minute, second, and the
trailing rest. -/
def isoParseHms (s : Str) : Option (Nat × Nat × Nat × Str) := do
  let p7 ← readDigitsN 2 0 s
  let r8 ← litCS [':'] p7.2
  let p9 ← readDigitsN 2 0 r8
  let r10 ← litCS [':'] p9.2
  let p11 ← readDigitsN 2 0 r10
  some (p7.1, p9.1, p11.1, p11.2)

/-- A concrete model of the environment's Date constructor on ISO 8601
strings in a process whose local timezone is UTC: used to instantiate the
JsDateOf parameter in closed statements.  Out-of-range components yield an
Invalid Date, as the ECMAScript date-time string format prescribes. -/
def isoParseUTC (s : Str) : Option DateParts := do
  let d ← isoParseYmd s
  let t ← isoParseHms d.2.2.2
  if isoChecks d.1 d.2.1 d.2.2.1 t.1 t.2.1 t.2.2.1 t.2.2.2 then
    some ⟨d.1, d.2.1 - 1, d.2.2.1, t.1, t.2.1, t.2.2.1⟩
  else none

/-- Executable shape check for the YYYY-MM-DD HH:MM:SS literal: one or more
year digits, then dash, two digits, dash, two digits, space, two digits,
colon, two digits, colon, two digits, end of string. -/
def sqlTailShape : Str → Bool
  | d1 :: a :: b :: d2 :: c :: d :: sp :: e :: f :: c1 :: g :: h :: c2 :: i :: j :: [] =>
    (d1 = '-' : Bool) && (d2 = '-' : Bool) && (sp = ' ' : Bool)
      && (c1 = ':' : Bool) && (c2 = ':' : Bool)
      && isDigitC a && isDigitC b && isDigitC c && isDigitC d && isDigitC e
      && isDigitC f && isDigitC g && isDigitC h && isDigitC i && isDigitC j
  | _ => false

/-- Shape check for the full literal: a nonempty digit run for the year
followed by the fixed tail shape. -/
def sqlDateTimeShape : Str → Bool
  | [] => false
  | c :: cs => isDigitC c && sqlDateTimeShapeGo cs
where
  /-- Consume the remaining year digits, then check the tail. -/
  sqlDateTimeShapeGo : Str → Bool
    | [] => false
    | c :: cs => if isDigitC c then sqlDateTimeShapeGo cs else sqlTailShape (c :: cs)

/-! ## Result envelopes and adapter methods

Every adapter method is embedded as a function from the underlying driver
call's result (success payload or engine error) to the method's own result.
The driver itself is the environment; its replies are inputs. -/

/-- An engine-specific error, carrying the driver's string code and numeric
errno when present (the fields inspected by the migration runner). -/
structure SqlError where
  code : Option String
  errno : Option Int
deriving DecidableEq, Repr

/-- A result row: column name to value bindings. -/
abbrev Row := List (String × JSVal)

/-- The value found at a meta key of a result envelope; `absent` means the
key is not present on the object at all. -/
inductive MetaVal
  | absent
  | vnull
  | vnum (n : Int)
  | vbool (b : Bool)
  | vstr (s : Str)
  | vobj
deriving DecidableEq, Repr

/-- The meta object of a result envelope. -/
structure Meta where
  changes : MetaVal := .absent
  lastInsertRowid : MetaVal := .absent
  lastRowId : MetaVal := .absent
  changedDb : MetaVal := .absent
  duration : Nat := 0
  rowsRead : MetaVal := .absent
  rowsWritten : MetaVal := .absent
  sizeAfter : Nat := 0
deriving DecidableEq, Repr

/-- The results field of an envelope: the driver's row list, or — when a
write statement was dispatched through a read-shaped call on MySQL — the
driver's raw result header. -/
inductive ResultsVal
  | rlist (rs : List Row)
  | rheader (affectedRows : Nat) (insertId : Nat)
deriving DecidableEq, Repr

/-- A D1-style result envelope. -/
structure Envelope where
  success : Bool
  meta : Meta
  results : Option ResultsVal := none
deriving DecidableEq, Repr

/-- Reply of a mysql2 execute call: a row list for reads, a result header
carrying affectedRows and insertId for writes. -/
inductive MysqlReply
  | rrows (rs : List Row)
  | header (affectedRows : Nat) (insertId : Nat)
deriving DecidableEq, Repr

/-- Reply of a pg query call. `rowCount` is none when the driver reports
null. -/
structure PgReply where
  rows : List Row
  rowCount : Option Nat
deriving DecidableEq, Repr

/-- Reply of a better-sqlite3 run call. -/
structure SqliteRunReply where
  changes : Nat
  lastInsertRowid : Nat
deriving DecidableEq, Repr

/-- JavaScript `x || 0` over the possibly-undefined affectedRows of a mysql2
reply (undefined on a row-list reply). -/
def MysqlReply.affectedOrZero : MysqlReply → Nat
  | .rrows _ => 0
  | .header a _ => a

/-- JavaScript `result.insertId || null` over a mysql2 reply: undefined on a
row-list reply and a zero insertId are both null. -/
def MysqlReply.insertIdOrNull : MysqlReply → MetaVal
  | .rrows _ => .vnull
  | .header _ i => if i = 0 then .vnull else .vnum i

/-- JavaScript `rows.length || 0` over a mysql2 reply (length is undefined on
a result header). -/
def MysqlReply.lenOrZero : MysqlReply → Nat
  | .rrows rs => rs.length
  | .header _ _ => 0

/-- The results field produced by reading the reply as a row array. -/
def MysqlReply.asResults : MysqlReply → ResultsVal
  | .rrows rs => .rlist rs
  | .header a i => .rheader a i

/-- JavaScript `result.rowCount || 0` on a pg reply. -/
def PgReply.countOrZero (r : PgReply) : Nat := r.rowCount.getD 0

/-- JavaScript `v || null` over an optional JavaScript value (undefined and
every falsy value become null). -/
def jsOrNullVal : Option JSVal → MetaVal
  | none => .vnull
  | some .jsNull => .vnull
  | some .undef => .vnull
  | some .nan => .vnull
  | some (.num n) => if n = 0 then .vnull else .vnum n
  | some (.str s) => if s = [] then .vnull else .vstr s
  | some (.bool b) => if b then .vbool true else .vnull
  | some (.date _) => .vobj

/-- JavaScript `result.rows[0]?.id || null` on a pg reply. -/
def PgReply.firstIdOrNull (r : PgReply) : MetaVal :=
  jsOrNullVal (r.rows.head?.bind fun row => row.lookup "id")

/-- Payload of a first() call: nothing on zero rows, otherwise the first row
or — when a column name was supplied — that column's value (missing column
coerced to null). -/
def firstPayload (rows : List Row) (colName : Option String) : Option (Row ⊕ JSVal) :=
  match rows.head? with
  | none => none
  | some row =>
    match colName with
    | some c =>
      some (.inr (match row.lookup c with
        | some v => v
        | none => .jsNull))
    | none => some (.inl row)

/-- Column names of the first row, used by raw with the columnNames
option. -/
def keysOfFirst (rows : List Row) : List String :=
  match rows.head? with
  | some r => r.map (·.1)
  | none => []

/-! MySQL adapter methods.  The bound and unbound prepared-statement classes
carry textually separate implementations in the source; both are embedded
(the U suffix marks the unbound variant). -/

/-- Bound MySQL first(): a driver error is caught, logged and turned into
null. -/
def mysqlFirstB (colName : Option String) : Except SqlError (List Row) →
    Except SqlError (Option (Row ⊕ JSVal))
  | .ok rows => .ok (firstPayload rows colName)
  | .error _ => .ok none

/-- Unbound MySQL first(): a driver error is caught, logged and turned into
null. -/
def mysqlFirstU (colName : Option String) : Except SqlError (List Row) →
    Except SqlError (Option (Row ⊕ JSVal))
  | .ok rows => .ok (firstPayload rows colName)
  | .error _ => .ok none

/-- Envelope built by the MySQL run() methods from a driver reply. -/
def mysqlRunEnvelope (r : MysqlReply) : Envelope :=
  { success := true
    meta :=
      { changes := .vnum r.affectedOrZero
        lastInsertRowid := r.insertIdOrNull
        lastRowId := r.insertIdOrNull
        changedDb := .vbool false
        duration := 0
        rowsRead := .vnum 0
        rowsWritten := .vnum r.affectedOrZero
        sizeAfter := 0 } }

/-- Bound MySQL run(): a driver error is logged and rethrown. -/
def mysqlRunB : Except SqlError MysqlReply → Except SqlError Envelope
  | .ok r => .ok (mysqlRunEnvelope r)
  | .error e => .error e

/-- Unbound MySQL run(): a driver error is logged and rethrown. -/
def mysqlRunU : Except SqlError MysqlReply → Except SqlError Envelope
  | .ok r => .ok (mysqlRunEnvelope r)
  | .error e => .error e

/-- Envelope built by the MySQL all() methods from a driver reply. -/
def mysqlAllEnvelope (r : MysqlReply) : Envelope :=
  { success := true
    meta :=
      { duration := 0
        sizeAfter := 0
        rowsRead := .vnum r.lenOrZero
        rowsWritten := .vnum 0 }
    results := some r.asResults }

/-- Bound MySQL all(): a driver error is logged and rethrown. -/
def mysqlAllB : Except SqlError MysqlReply → Except SqlError Envelope
  | .ok r => .ok (mysqlAllEnvelope r)
  | .error e => .error e

/-- Unbound MySQL all(): a driver error is logged and rethrown. -/
def mysqlAllU : Except SqlError MysqlReply → Except SqlError Envelope
  | .ok r => .ok (mysqlAllEnvelope r)
  | .error e => .error e

/-- Bound MySQL raw(): a driver error is logged and rethrown. -/
def mysqlRawB (colNames : Bool) : Except SqlError (List Row) →
    Except SqlError (List Row ⊕ (List String × List Row))
  | .ok rows => .ok (if colNames then .inr (keysOfFirst rows, rows) else .inl rows)
  | .error e => .error e

/-- Unbound MySQL raw(): a driver error is logged and rethrown. -/
def mysqlRawU (colNames : Bool) : Except SqlError (List Row) →
    Except SqlError (List Row ⊕ (List String × List Row))
  | .ok rows => .ok (if colNames then .inr (keysOfFirst rows, rows) else .inl rows)
  | .error e => .error e

/-- Envelope built per statement by MySQL exec(). -/
def mysqlExecEnvelope (r : MysqlReply) : Envelope :=
  { success := true
    meta :=
      { changes := .vnum r.affectedOrZero
        lastInsertRowid := r.insertIdOrNull
        duration := 0
        rowsRead := .vnum r.affectedOrZero
        rowsWritten := .vnum r.affectedOrZero
        sizeAfter := 0 } }

/-- MySQL exec(): split on semicolons, keep the pieces with nonempty trim,
execute each in order; a statement error is logged and rethrown, aborting the
loop.  The oracle gives each statement's driver reply. -/
def mysqlExecGo (o : Str → Except SqlError MysqlReply) :
    List Str → Except SqlError (List Envelope)
  | [] => .ok []
  | st :: rest =>
    if (trimStr st).isEmpty then mysqlExecGo o rest
    else
      match o st with
      | .ok r => (mysqlExecGo o rest).map (mysqlExecEnvelope r :: ·)
      | .error e => .error e

/-- MySQL exec() over a multi-statement query. -/
def mysqlExec (o : Str → Except SqlError MysqlReply) (query : Str) :
    Except SqlError (List Envelope) :=
  mysqlExecGo o ((splitOnChar ';' query).filter fun s => !(trimStr s).isEmpty)

/-! PostgreSQL adapter methods. -/

/-- Bound PostgreSQL first(): a driver error is caught, logged and turned
into null. -/
def pgFirstB (colName : Option String) : Except SqlError PgReply →
    Except SqlError (Option (Row ⊕ JSVal))
  | .ok r => .ok (firstPayload r.rows colName)
  | .error _ => .ok none

/-- Unbound PostgreSQL first(): a driver error is caught, logged and turned
into null. -/
def pgFirstU (colName : Option String) : Except SqlError PgReply →
    Except SqlError (Option (Row ⊕ JSVal))
  | .ok r => .ok (firstPayload r.rows colName)
  | .error _ => .ok none

/-- Envelope built by the PostgreSQL run() methods (note: no last_row_id and
no changed_db key, unlike the other two adapters). -/
def pgRunEnvelope (r : PgReply) : Envelope :=
  { success := true
    meta :=
      { changes := .vnum r.countOrZero
        lastInsertRowid := r.firstIdOrNull
        duration := 0
        rowsRead := .vnum 0
        rowsWritten := .vnum r.countOrZero
        sizeAfter := 0 } }

/-- Bound PostgreSQL run(): a driver error is logged and rethrown. -/
def pgRunB : Except SqlError PgReply → Except SqlError Envelope
  | .ok r => .ok (pgRunEnvelope r)
  | .error e => .error e

/-- Unbound PostgreSQL run(): a driver error is logged and rethrown. -/
def pgRunU : Except SqlError PgReply → Except SqlError Envelope
  | .ok r => .ok (pgRunEnvelope r)
  | .error e => .error e

/-- Envelope built by the PostgreSQL all() methods. -/
def pgAllEnvelope (r : PgReply) : Envelope :=
  { success := true
    meta :=
      { duration := 0
        sizeAfter := 0
        rowsRead := .vnum r.countOrZero
        rowsWritten := .vnum 0 }
    results := some (.rlist r.rows) }

/-- Bound PostgreSQL all(): a driver error is logged and rethrown. -/
def pgAllB : Except SqlError PgReply → Except SqlError Envelope
  | .ok r => .ok (pgAllEnvelope r)
  | .error e => .error e

/-- Unbound PostgreSQL all(): a driver error is logged and rethrown. -/
def pgAllU : Except SqlError PgReply → Except SqlError Envelope
  | .ok r => .ok (pgAllEnvelope r)
  | .error e => .error e

/-- Bound PostgreSQL raw(): a driver error is logged and rethrown. -/
def pgRawB : Except SqlError PgReply → Except SqlError (List Row)
  | .ok r => .ok r.rows
  | .error e => .error e

/-- Unbound PostgreSQL raw(): a driver error is logged and rethrown. -/
def pgRawU : Except SqlError PgReply → Except SqlError (List Row)
  | .ok r => .ok r.rows
  | .error e => .error e

/-- Envelope built per statement by PostgreSQL exec(). -/
def pgExecEnvelope (r : PgReply) : Envelope :=
  { success := true
    meta :=
      { changes := .vnum r.countOrZero
        lastInsertRowid := r.firstIdOrNull
        duration := 0
        rowsRead := .vnum r.countOrZero
        rowsWritten := .vnum r.countOrZero
        sizeAfter := 0 } }

/-- PostgreSQL exec(): split on semicolons, execute nonempty pieces in order;
a statement error is logged and rethrown, aborting the loop. -/
def pgExecGo (o : Str → Except SqlError PgReply) :
    List Str → Except SqlError (List Envelope)
  | [] => .ok []
  | st :: rest =>
    if (trimStr st).isEmpty then pgExecGo o rest
    else
      match o st with
      | .ok r => (pgExecGo o rest).map (pgExecEnvelope r :: ·)
      | .error e => .error e

/-- PostgreSQL exec() over a multi-statement query. -/
def pgExec (o : Str → Except SqlError PgReply) (query : Str) :
    Except SqlError (List Envelope) :=
  pgExecGo o ((splitOnChar ';' query).filter fun s => !(trimStr s).isEmpty)

/-! Embedded SQLite adapter methods.  None of them contain an error handler:
a driver error always propagates to the caller. -/

/-- Bound SQLite first(): no error handler, errors propagate. -/
def sqliteFirstB (colName : Option String) : Except SqlError (Option Row) →
    Except SqlError (Option (Row ⊕ JSVal))
  | .ok row? => .ok (firstPayload row?.toList colName)
  | .error e => .error e

/-- Unbound SQLite first(): no error handler, errors propagate. -/
def sqliteFirstU (colName : Option String) : Except SqlError (Option Row) →
    Except SqlError (Option (Row ⊕ JSVal))
  | .ok row? => .ok (firstPayload row?.toList colName)
  | .error e => .error e

/-- Envelope built by the SQLite run() methods. -/
def sqliteRunEnvelope (r : SqliteRunReply) : Envelope :=
  { success := true
    meta :=
      { changes := .vnum r.changes
        lastInsertRowid := .vnum r.lastInsertRowid
        lastRowId := .vnum r.lastInsertRowid
        changedDb := .vbool false
        duration := 0
        rowsRead := .vnum 0
        rowsWritten := .vnum r.changes
        sizeAfter := 0 } }

/-- Bound SQLite run(): no error handler, errors propagate. -/
def sqliteRunB : Except SqlError SqliteRunReply → Except SqlError Envelope
  | .ok r => .ok (sqliteRunEnvelope r)
  | .error e => .error e

/-- Unbound SQLite run(): no error handler, errors propagate. -/
def sqliteRunU : Except SqlError SqliteRunReply → Except SqlError Envelope
  | .ok r => .ok (sqliteRunEnvelope r)
  | .error e => .error e

/-- Envelope built by the SQLite all() methods. -/
def sqliteAllEnvelope (rows : List Row) : Envelope :=
  { success := true
    meta :=
      { duration := 0
        sizeAfter := 0
        rowsRead := .vnum rows.length
        rowsWritten := .vnum 0 }
    results := some (.rlist rows) }

/-- Bound SQLite all(): no error handler, errors propagate. -/
def sqliteAllB : Except SqlError (List Row) → Except SqlError Envelope
  | .ok rows => .ok (sqliteAllEnvelope rows)
  | .error e => .error e

/-- Unbound SQLite all(): no error handler, errors propagate. -/
def sqliteAllU : Except SqlError (List Row) → Except SqlError Envelope
  | .ok rows => .ok (sqliteAllEnvelope rows)
  | .error e => .error e

/-- Bound SQLite raw(): no error handler, errors propagate. -/
def sqliteRawB (colNames : Bool) : Except SqlError (List Row) →
    Except SqlError (List Row ⊕ (List String × List Row))
  | .ok rows => .ok (if colNames then .inr (keysOfFirst rows, rows) else .inl rows)
  | .error e => .error e

/-- Unbound SQLite raw(): no error handler, errors propagate. -/
def sqliteRawU (colNames : Bool) : Except SqlError (List Row) →
    Except SqlError (List Row ⊕ (List String × List Row))
  | .ok rows => .ok (if colNames then .inr (keysOfFirst rows, rows) else .inl rows)
  | .error e => .error e

/-- SQLite exec(): split on semicolons, run nonempty pieces in order; no
error handler, a statement error aborts the loop and propagates. -/
def sqliteExecGo (o : Str → Except SqlError SqliteRunReply) :
    List Str → Except SqlError (List Envelope)
  | [] => .ok []
  | st :: rest =>
    if (trimStr st).isEmpty then sqliteExecGo o rest
    else
      match o st with
      | .ok r => (sqliteExecGo o rest).map (sqliteRunEnvelope r :: ·)
      | .error e => .error e

/-- SQLite exec() over a multi-statement query. -/
def sqliteExec (o : Str → Except SqlError SqliteRunReply) (query : Str) :
    Except SqlError (List Envelope) :=
  sqliteExecGo o ((splitOnChar ';' query).filter fun s => !(trimStr s).isEmpty)

/-! ## Auto-increment table model

A minimal model of one auto-increment table of the engine, used to relate a
run() envelope's insertedId to the id under which the inserted row is
subsequently retrievable. -/

/-- One auto-increment table: the next id to assign and the stored rows. -/
structure AutoTable where
  nextId : Nat
  rowsTbl : List (Nat × Row)
deriving DecidableEq, Repr

/-- Insert a row, returning the new table and the id assigned. -/
def insertRow (t : AutoTable) (r : Row) : AutoTable × Nat :=
  ({ nextId := t.nextId + 1, rowsTbl := t.rowsTbl ++ [(t.nextId, r)] }, t.nextId)

/-- Retrieve a row by id. -/
def selectById (t : AutoTable) (i : Nat) : Option Row :=
  (t.rowsTbl.find? fun p => p.1 = i).map (·.2)

/-- Driver reply of better-sqlite3 for an INSERT that assigned newId. -/
def sqliteInsertReply (newId : Nat) : SqliteRunReply :=
  { changes := 1, lastInsertRowid := newId }

/-- Driver reply of mysql2 for an INSERT that assigned newId. -/
def mysqlInsertReply (newId : Nat) : MysqlReply := .header 1 newId

/-- Driver reply of pg for a plain INSERT without a RETURNING clause: one row
affected, no rows returned. -/
def pgPlainInsertReply : PgReply := { rows := [], rowCount := some 1 }

/-- Driver reply of pg for an INSERT ... RETURNING id that assigned newId. -/
def pgReturningInsertReply (newId : Nat) : PgReply :=
  { rows := [[("id", JSVal.num newId)]], rowCount := some 1 }

/-! ## Batch dispatch

Each adapter's batch() maps each statement's all() execution over the input
list.  The driver is a stateful oracle: executing a statement transforms the
driver state, which lets input-order dispatch be stated and proved. -/

/-- Sequential dispatch of a statement list through a per-statement step, in
input order, threading the driver state. -/
def batchVia (step : Str → σ → Except SqlError Envelope × σ) :
    List Str → σ → List (Except SqlError Envelope) × σ
  | [], s => ([], s)
  | q :: qs, s =>
    let (r, s') := step q s
    let (rs, s'') := batchVia step qs s'
    (r :: rs, s'')

/-- MySQL batch(): map all() over the statements. -/
def mysqlBatch (execO : Str → σ → Except SqlError MysqlReply × σ)
    (stmts : List Str) (s : σ) : List (Except SqlError Envelope) × σ :=
  batchVia (fun q t => let p := execO q t; (mysqlAllB p.1, p.2)) stmts s

/-- PostgreSQL batch(): map all() over the statements. -/
def pgBatch (execO : Str → σ → Except SqlError PgReply × σ)
    (stmts : List Str) (s : σ) : List (Except SqlError Envelope) × σ :=
  batchVia (fun q t => let p := execO q t; (pgAllB p.1, p.2)) stmts s

/-- SQLite batch(): map all() over the statements. -/
def sqliteBatch (execO : Str → σ → Except SqlError (List Row) × σ)
    (stmts : List Str) (s : σ) : List (Except SqlError Envelope) × σ :=
  batchVia (fun q t => let p := execO q t; (sqliteAllB p.1, p.2)) stmts s

/-- Specification-side reading of the batch contract: the stateful map of
each statement's all() execution over the input list, written with the
standard monadic map on the state monad. -/
def specBatchStateM (step : Str → σ → Except SqlError Envelope × σ)
    (stmts : List Str) : StateM σ (List (Except SqlError Envelope)) :=
  stmts.mapM fun q s => step q s

/-- Driver state reached after dispatching a statement list in input order. -/
def dispatchFold (execState : Str → σ → σ) (s : σ) (stmts : List Str) : σ :=
  stmts.foldl (fun t q => execState q t) s

/-! ## Migration dialect translator (MySQL target)

The source rewrites canonical SQLite DDL text into MySQL DDL with a fixed
sequence of regex replaces.  Each regex is embedded as a character-level
scanner; a global replace scans left to right and continues after each match,
exactly like a JavaScript global regex replace. -/

/-- The source text consumed by a match, recovered from the suffix left
after it. -/
def consumedBy (s rest : Str) : Str := s.take (s.length - rest.length)

/-- Join string pieces with a separator. -/
def joinSep (sep : Str) : List Str → Str
  | [] => []
  | [x] => x
  | x :: xs => x ++ sep ++ joinSep sep xs

/-- Scanner for one match of the table-header regex: the literal CREATE
TABLE, whitespace, a captured word, optional whitespace, an opening
parenthesis, one or more characters other than a closing parenthesis
(captured), a closing parenthesis.  Returns table name, column-definition
capture, and the input remaining after the match. -/
def tryCreateTableHead (s : Str) : Option (Str × Str × Str) :=
  (litCI "create table".data s).bind fun r1 =>
  (ws1 r1).bind fun r2 =>
  (word1 r2).bind fun (name, r3) =>
  (litCS ['('] (ws0 r3)).bind fun r5 =>
  (takeUntilChar ')' r5).bind fun (cols, r6) =>
  if cols.isEmpty then none
  else
    match r6 with
    | _ :: r7 => some (name, cols, r7)
    | [] => none

/-- All matches of the table-header regex, in order. -/
def findCreateTables : Nat → Str → List (Str × Str)
  | 0, _ => []
  | _ + 1, [] => []
  | fuel + 1, c :: cs =>
    match tryCreateTableHead (c :: cs) with
    | some (name, cols, rest) => (name, cols) :: findCreateTables fuel rest
    | none => findCreateTables fuel cs

/-- The table headers extracted from a migration text. -/
def extractTables (sql : Str) : List (Str × Str) := findCreateTables sql.length sql

/-- Anchored column test: a captured word, whitespace, the literal TEXT. -/
def colIsText (line : Str) : Option Str :=
  (word1 line).bind fun (w, r) =>
  (ws1 r).bind fun r2 =>
  (litCI "text".data r2).map fun _ => w

/-- Whether a case-insensitive literal occurs in the input before any
newline (the dot of a regex does not cross line breaks). -/
def hasLitCIBeforeNl (pat : Str) : Str → Bool
  | [] => (litCI pat []).isSome
  | c :: cs =>
    if (litCI pat (c :: cs)).isSome then true
    else if c = '\n' then false
    else hasLitCIBeforeNl pat cs

/-- Anchored unique-column test: a captured word, whitespace, the literal
TEXT, then the literal UNIQUE somewhere later on the same line. -/
def colIsUniqueText (line : Str) : Option Str :=
  (word1 line).bind fun (w, r) =>
  (ws1 r).bind fun r2 =>
  (litCI "text".data r2).bind fun r3 =>
  if hasLitCIBeforeNl "unique".data r3 then some w else none

/-- Insert or overwrite a key in an insertion-ordered map (JavaScript Map
set semantics). -/
def upsert (k : Str) (v : α) : List (Str × α) → List (Str × α)
  | [] => [(k, v)]
  | (k', v') :: rest => if k' = k then (k, v) :: rest else (k', v') :: upsert k v rest

/-- Add an element to an insertion-ordered set. -/
def addOnce (x : Str) (xs : List Str) : List Str := if x ∈ xs then xs else xs ++ [x]

/-- Deduplicate while keeping first-insertion order (JavaScript Set built by
repeated add). -/
def dedupKeep (xs : List Str) : List Str := xs.foldl (fun acc x => addOnce x acc) []

/-- Add an element to the set stored under a key, creating the entry when
absent. -/
def addToSetMap (k x : Str) : List (Str × List Str) → List (Str × List Str)
  | [] => [(k, [x])]
  | (k', v) :: rest =>
    if k' = k then (k', addOnce x v) :: rest else (k', v) :: addToSetMap k x rest

/-- Look a key up in an insertion-ordered map of sets, defaulting to the
empty set. -/
def lookupSetD (m : List (Str × List Str)) (k : Str) : List Str :=
  match m.find? fun p => p.1 = k with
  | some p => p.2
  | none => []

/-- TEXT columns per column-definition capture: split on commas, trim, keep
the anchored TEXT matches. -/
def textColsOfDef (colsDef : Str) : List Str :=
  dedupKeep (((splitOnChar ',' colsDef).map trimStr).filterMap colIsText)

/-- UNIQUE TEXT columns per column-definition capture. -/
def uniqueTextColsOfDef (colsDef : Str) : List Str :=
  dedupKeep (((splitOnChar ',' colsDef).map trimStr).filterMap colIsUniqueText)

/-- The map from table name to its TEXT columns; only tables with at least
one TEXT column get an entry. -/
def textColumnsOf (sql : Str) : List (Str × List Str) :=
  (extractTables sql).foldl
    (fun m p =>
      let tc := textColsOfDef p.2
      if tc.isEmpty then m else upsert p.1 tc m)
    []

/-- The map from table name to its UNIQUE TEXT columns. -/
def uniqueTextColumnsOf (sql : Str) : List (Str × List Str) :=
  (extractTables sql).foldl
    (fun m p => (uniqueTextColsOfDef p.2).foldl (fun m2 col => addToSetMap p.1 col m2) m)
    []

/-- Scanner for one match of the inline multi-column unique regex: the
literal UNIQUE, optional whitespace, an opening parenthesis, one or more
characters other than a closing parenthesis (captured), a closing
parenthesis.  Returns the capture and the input remaining after the match. -/
def tryUniqueParen (s : Str) : Option (Str × Str) :=
  (litCI "unique".data s).bind fun r1 =>
  (litCS ['('] (ws0 r1)).bind fun r3 =>
  (takeUntilChar ')' r3).bind fun (cols, r4) =>
  if cols.isEmpty then none
  else
    match r4 with
    | _ :: r5 => some (cols, r5)
    | [] => none

/-- First match of the inline multi-column unique regex, capture only. -/
def findUniqueParen (s : Str) : Option Str :=
  firstHit (fun t => (tryUniqueParen t).map (·.1)) s

/-- The multi-column unique constraints that mention a TEXT column, detected
by searching each table-header capture for the inline unique regex.  (The
capture can never contain a closing parenthesis, so this detection can never
fire; the embedding preserves the source behaviour.) -/
def multiColumnUniqueConstraintsOf (textColumns : List (Str × List Str)) (sql : Str) :
    List (Str × List Str) :=
  (extractTables sql).foldl
    (fun acc p =>
      match findUniqueParen p.2 with
      | none => acc
      | some colsStr =>
        let cols := (splitOnChar ',' colsStr).map trimStr
        let textCols := lookupSetD textColumns p.1
        if cols.any (· ∈ textCols) then acc ++ [(p.1, cols)] else acc)
    []

/-- Case-sensitive literal replace scanner. -/
def tryLitCS (pat repl : Str) (s : Str) : Option (Str × Str) :=
  (litCS pat s).map fun rest => (repl, rest)

/-- Scanner for TEXT NOT NULL UNIQUE (case-insensitive, flexible
whitespace), replaced by TEXT NOT NULL. -/
def tryTextNotNullUnique (s : Str) : Option (Str × Str) :=
  ((litCI "text".data s).bind fun r1 =>
   (ws1 r1).bind fun r2 =>
   (litCI "not".data r2).bind fun r3 =>
   (ws1 r3).bind fun r4 =>
   (litCI "null".data r4).bind fun r5 =>
   (ws1 r5).bind fun r6 =>
   litCI "unique".data r6).map fun rest => ("TEXT NOT NULL".data, rest)

/-- Scanner for TEXT UNIQUE, replaced by TEXT. -/
def tryTextUnique (s : Str) : Option (Str × Str) :=
  ((litCI "text".data s).bind fun r1 =>
   (ws1 r1).bind fun r2 =>
   litCI "unique".data r2).map fun rest => ("TEXT".data, rest)

/-- Scanner for the global unique-clause replace: a matched inline
UNIQUE(...) is removed when any of its trimmed column names is a TEXT column
of any table, and kept verbatim otherwise. -/
def tryRemoveUniqueParen (textColumns : List (Str × List Str)) (s : Str) :
    Option (Str × Str) :=
  (tryUniqueParen s).map fun (colsStr, rest) =>
    let cols := (splitOnChar ',' colsStr).map trimStr
    if textColumns.any fun tc => cols.any (· ∈ tc.2) then ([], rest)
    else (consumedBy s rest, rest)

/-- Scanner for a comma, optional whitespace, comma; replaced by one
comma. -/
def tryCommaComma (s : Str) : Option (Str × Str) :=
  ((litCS [','] s).bind fun r1 => litCS [','] (ws0 r1)).map fun rest => ([','], rest)

/-- Scanner for a comma, optional whitespace, closing parenthesis; replaced
by the parenthesis. -/
def tryCommaRparen (s : Str) : Option (Str × Str) :=
  ((litCS [','] s).bind fun r1 => litCS [')'] (ws0 r1)).map fun rest => ([')'], rest)

/-- Scanner for an opening parenthesis, optional whitespace, comma; replaced
by the parenthesis. -/
def tryLparenComma (s : Str) : Option (Str × Str) :=
  ((litCS ['('] s).bind fun r1 => litCS [','] (ws0 r1)).map fun rest => (['('], rest)

/-- Scanner for a single-quoted literal: quote, any characters other than a
quote, quote. -/
def quotedLit (s : Str) : Option Str :=
  (litCS [squote] s).bind fun r1 =>
  (takeUntilChar squote r1).bind fun (_, r2) =>
  match r2 with
  | _ :: r3 => some r3
  | [] => none

/-- Scanner for TEXT NOT NULL DEFAULT with a quoted value, replaced by TEXT
NOT NULL. -/
def tryTextNotNullDefault (s : Str) : Option (Str × Str) :=
  ((litCI "text".data s).bind fun r1 =>
   (ws1 r1).bind fun r2 =>
   (litCI "not".data r2).bind fun r3 =>
   (ws1 r3).bind fun r4 =>
   (litCI "null".data r4).bind fun r5 =>
   (ws1 r5).bind fun r6 =>
   (litCI "default".data r6).bind fun r7 =>
   (ws1 r7).bind fun r8 =>
   quotedLit r8).map fun rest => ("TEXT NOT NULL".data, rest)

/-- Scanner for TEXT DEFAULT with a quoted value, replaced by TEXT. -/
def tryTextDefault (s : Str) : Option (Str × Str) :=
  ((litCI "text".data s).bind fun r1 =>
   (ws1 r1).bind fun r2 =>
   (litCI "default".data r2).bind fun r3 =>
   (ws1 r3).bind fun r4 =>
   quotedLit r4).map fun rest => ("TEXT".data, rest)

/-- Scanner for INTEGER PRIMARY KEY with a negative lookahead refusing a
following AUTOINCREMENT; replaced by INT PRIMARY KEY. -/
def tryIntPrimary (s : Str) : Option (Str × Str) :=
  (litCS "INTEGER PRIMARY KEY".data s).bind fun rest =>
    match (ws1 rest).bind (litCS "AUTOINCREMENT".data) with
    | some _ => none
    | none => some ("INT PRIMARY KEY".data, rest)

/-- The fixed reserved-word list used when escaping column names in ALTER
TABLE ADD COLUMN statements. -/
def reservedKeywords : List Str :=
  ["repeat", "order", "group", "select", "insert", "update", "delete",
   "create", "drop", "alter", "table", "index", "key", "primary", "foreign",
   "references", "constraint", "default", "null", "not", "unique", "check",
   "auto_increment", "timestamp", "datetime", "date", "time", "year", "text",
   "varchar", "char", "int", "integer", "bigint", "smallint", "tinyint",
   "decimal", "float", "double", "real", "boolean", "bool", "blob", "binary",
   "varbinary", "enum", "set", "json"].map String.data

/-- Capture of the regex tail after the column name in the ALTER escape: one
or more whitespace characters, then lazily up to the first semicolon or the
end of the input (the dot cannot cross a newline, so a newline strictly
before the terminator makes the match fail). -/
def restCapture (s : Str) : Option (Str × Str) :=
  match s with
  | [] => none
  | c :: cs =>
    if isSpaceC c then
      match wsTake (c :: cs) with
      | (w, r) => (lazyToSemi r).map fun q => (w ++ q.1, q.2)
    else none
where
  /-- Characters up to the first semicolon or the end, failing on a
  newline. -/
  lazyToSemi : Str → Option (Str × Str)
    | [] => some ([], [])
    | c :: cs =>
      if c = ';' then some ([], c :: cs)
      else if c = '\n' then none
      else (lazyToSemi cs).map fun p => (c :: p.1, p.2)

/-- Head of the ALTER regexes: ALTER, whitespace, TABLE, whitespace, a
captured word (the table name). -/
def tryAlterTbl (s : Str) : Option (Str × Str) :=
  (litCI "alter".data s).bind fun r1 =>
  (ws1 r1).bind fun r2 =>
  (litCI "table".data r2).bind fun r3 =>
  (ws1 r3).bind fun r4 =>
  word1 r4

/-- Continuation of the ALTER regexes: whitespace, ADD, whitespace, COLUMN,
whitespace, a captured word (the column name). -/
def tryAddCol (s : Str) : Option (Str × Str) :=
  (ws1 s).bind fun r6 =>
  (litCI "add".data r6).bind fun r7 =>
  (ws1 r7).bind fun r8 =>
  (litCI "column".data r8).bind fun r9 =>
  (ws1 r9).bind fun r10 =>
  word1 r10

/-- The replacement chosen by the escape callback: when the captured column
name, lower-cased, is in the reserved list, the statement is rebuilt with the
column name wrapped in backticks; otherwise the matched text is emitted
unchanged. -/
def alterEscapeRepl (matched tbl col rest : Str) : Str :=
  if col.map lowerC ∈ reservedKeywords then
    "ALTER TABLE ".data ++ tbl ++ " ADD COLUMN ".data
      ++ btick :: col ++ btick :: rest
  else matched

/-- Scanner for the ALTER TABLE ADD COLUMN reserved-word escape. -/
def tryAlterEscape (s : Str) : Option (Str × Str) :=
  (tryAlterTbl s).bind fun pt =>
  (tryAddCol pt.2).bind fun pc =>
  (restCapture pc.2).map fun pr =>
  (alterEscapeRepl (consumedBy s pr.2) pt.1 pc.1 pr.1, pr.2)

/-- Remove a trailing parenthesised suffix from a column reference (the
anchored replace stripping an existing length specification). -/
def stripParenSuffix (s : Str) : Str :=
  if s.getLast? = some ')' then
    let body := s.dropLast
    let seg := body.reverse.takeWhile fun c => c ≠ ')'
    if '(' ∈ seg then
      let segO := seg.reverse
      body.take (body.length - segO.length) ++ segO.takeWhile fun c => c ≠ '('
    else s
  else s

/-- Scanner for CREATE TABLE followed by a captured word (case-sensitive),
replaced by CREATE TABLE IF NOT EXISTS and the word. -/
def tryCreateTableIfne (s : Str) : Option (Str × Str) :=
  (litCS "CREATE TABLE ".data s).bind fun r1 =>
  (word1 r1).map fun (w, r2) => ("CREATE TABLE IF NOT EXISTS ".data ++ w, r2)

/-- Scanner for the CREATE INDEX rewrite: key lengths are appended to TEXT
column references, and an index over a single UNIQUE TEXT column is upgraded
to CREATE UNIQUE INDEX. -/
def tryCreateIndexRewrite (textColumns uniqueTextColumns : List (Str × List Str))
    (s : Str) : Option (Str × Str) :=
  (litCS "CREATE INDEX ".data s).bind fun r1 =>
  (word1 r1).bind fun (idx, r2) =>
  (litCS " ON ".data r2).bind fun (r3 : Str) =>
  (word1 r3).bind fun (tbl, r4) =>
  (litCS ['('] r4).bind fun r5 =>
  (takeUntilChar ')' r5).bind fun (colsStr, r6) =>
  if colsStr.isEmpty then none
  else
    match r6 with
    | _ :: r7 =>
      let textCols := lookupSetD textColumns tbl
      let uniqueTextCols := lookupSetD uniqueTextColumns tbl
      let cols := (splitOnChar ',' colsStr).map fun col =>
        let colName := stripParenSuffix (trimStr col)
        if colName ∈ textCols then colName ++ "(255)".data else colName
      let single := cols.length = 1
      let colName0 := stripParenSuffix cols.headI
      let repl :=
        if single ∧ colName0 ∈ uniqueTextCols then
          "CREATE UNIQUE INDEX ".data ++ idx ++ " ON ".data ++ tbl
            ++ '(' :: joinSep ", ".data cols ++ [')']
        else
          "CREATE INDEX ".data ++ idx ++ " ON ".data ++ tbl
            ++ '(' :: joinSep ", ".data cols ++ [')']
      some (repl, r7)
    | [] => none

/-- Scanner for INSERT OR IGNORE INTO, replaced by INSERT IGNORE INTO. -/
def tryInsertOrIgnore (s : Str) : Option (Str × Str) :=
  ((litCI "insert".data s).bind fun r1 =>
   (ws1 r1).bind fun r2 =>
   (litCI "or".data r2).bind fun r3 =>
   (ws1 r3).bind fun r4 =>
   (litCI "ignore".data r4).bind fun r5 =>
   (ws1 r5).bind fun r6 =>
   litCI "into".data r6).map fun rest => ("INSERT IGNORE INTO".data, rest)

/-- Scanner for INSERT OR REPLACE INTO, replaced by REPLACE INTO. -/
def tryInsertOrRepl (s : Str) : Option (Str × Str) :=
  ((litCI "insert".data s).bind fun r1 =>
   (ws1 r1).bind fun r2 =>
   (litCI "or".data r2).bind fun r3 =>
   (ws1 r3).bind fun r4 =>
   (litCI "replace".data r4).bind fun r5 =>
   (ws1 r5).bind fun r6 =>
   litCI "into".data r6).map fun rest => ("REPLACE INTO".data, rest)

/-- Scanner for the first occurrence of a CREATE TABLE IF NOT EXISTS header
for the given table, up to and including its terminating semicolon; returns
the matched text and the rest. -/
def tryCtine (tbl : Str) (s : Str) : Option (Str × Str) :=
  (litCI ("create table if not exists ".data ++ tbl) s).bind fun r1 =>
  (takeUntilChar ';' r1).bind fun (mid, r2) =>
  if mid.isEmpty then none
  else
    match r2 with
    | _ :: r3 => some (consumedBy s r3, r3)
    | [] => none

/-- Append text right after the first CREATE TABLE IF NOT EXISTS statement
of the given table (a first-match replace keeping the matched text). -/
def insertAfterCtine (tbl addition s : Str) : Str :=
  replaceFirst (fun t => (tryCtine tbl t).map fun p => (p.1 ++ addition, p.2)) s

/-- One step of the (unreachable) multi-column unique index emission loop. -/
def addMultiUniqueIndex (textColumns : List (Str × List Str))
    (sql : Str) (c : Str × List Str) : Str :=
  let textCols := lookupSetD textColumns c.1
  let indexedCols := c.2.map fun col =>
    if col ∈ textCols then col ++ "(255)".data else col
  let idxName := "idx_".data ++ c.1 ++ '_' :: joinSep ['_'] c.2 ++ "_unique".data
  let addition := '\n' :: "CREATE UNIQUE INDEX ".data ++ idxName ++ " ON ".data
    ++ c.1 ++ '(' :: joinSep ", ".data indexedCols ++ ");".data
  insertAfterCtine c.1 addition sql

/-- Scanner testing whether an index on the given table already references
the given column: CREATE, optionally UNIQUE, INDEX, an index name, ON, the
table name, an opening parenthesis, then the column name before any closing
parenthesis. -/
def tryHasIndexFor (tbl col : Str) (s : Str) : Option Unit :=
  (litCI "create".data s).bind fun r1 =>
  (ws1 r1).bind fun r2 =>
  (let r2' := match (litCI "unique".data r2).bind ws1 with
    | some r => r
    | none => r2
   (litCI "index".data r2').bind fun r3 =>
   (ws1 r3).bind fun r4 =>
   (word1 r4).bind fun (_, r5) =>
   (ws1 r5).bind fun r6 =>
   (litCI "on".data r6).bind fun r7 =>
   (ws1 r7).bind fun r8 =>
   (litCI tbl r8).bind fun r9 =>
   (litCS ['('] (ws0 r9)).bind fun r10 =>
   if seekLitNoRparen col r10 then some () else none)
where
  /-- Zero or more characters other than a closing parenthesis, then the
  column literal. -/
  seekLitNoRparen (pat : Str) : Str → Bool
    | [] => (litCI pat []).isSome
    | c :: cs =>
      if (litCI pat (c :: cs)).isSome then true
      else if c = ')' then false
      else seekLitNoRparen pat cs

/-- Whether the migration text already contains an index on the table that
references the column. -/
def hasIndexFor (tbl col sql : Str) : Bool :=
  (firstHit (tryHasIndexFor tbl col) sql).isSome

/-- One step of the unique TEXT column index emission loop: when no index on
the table references the column, a CREATE UNIQUE INDEX with a 255 prefix
length is inserted after the table's CREATE TABLE IF NOT EXISTS statement. -/
def addUniqueTextIndex (sql : Str) (tbl col : Str) : Str :=
  if hasIndexFor tbl col sql then sql
  else
    let addition := '\n' :: "CREATE UNIQUE INDEX idx_".data ++ tbl ++ '_' :: col
      ++ "_unique ON ".data ++ tbl ++ '(' :: col ++ "(255));".data
    insertAfterCtine tbl addition sql

/-- The reserved-word escaping pass over a whole migration text. -/
def escapeReservedAlter (s : Str) : Str := replaceAll tryAlterEscape s

/-- The complete MySQL translation pipeline of the migration runner, in
source order. -/
def mysqlTranslate (sql0 : Str) : Str :=
  let textColumns := textColumnsOf sql0
  let uniqueTextColumns := uniqueTextColumnsOf sql0
  let multiU := multiColumnUniqueConstraintsOf textColumns sql0
  let s1 := replaceAll tryTextNotNullUnique sql0
  let s2 := replaceAll tryTextUnique s1
  let s3 := replaceAll (tryRemoveUniqueParen textColumns) s2
  let s4 := replaceAll tryCommaComma s3
  let s5 := replaceAll tryCommaRparen s4
  let s6 := replaceAll tryLparenComma s5
  let s7 := replaceAll tryTextNotNullDefault s6
  let s8 := replaceAll tryTextDefault s7
  let s9 := replaceAll
    (tryLitCS "INTEGER PRIMARY KEY AUTOINCREMENT".data "INT AUTO_INCREMENT PRIMARY KEY".data) s8
  let s10 := replaceAll (tryLitCS "AUTOINCREMENT".data "AUTO_INCREMENT".data) s9
  let s11 := replaceAll (tryLitCS "DATETIME".data "TIMESTAMP".data) s10
  let s12a := replaceAll (tryLitCS "BOOLEAN DEFAULT 0".data "BOOLEAN DEFAULT FALSE".data) s11
  let s12b := replaceAll (tryLitCS "BOOLEAN DEFAULT 1".data "BOOLEAN DEFAULT TRUE".data) s12a
  let s12c := replaceAll tryIntPrimary s12b
  let s13 := replaceAll (tryLitCS "TEXT".data "TEXT".data) s12c
  let s14 := escapeReservedAlter s13
  let s15 := multiU.foldl (addMultiUniqueIndex textColumns) s14
  let s16 := replaceAll tryInsertOrIgnore s15
  let s17 := replaceAll tryInsertOrRepl s16
  let s18 := replaceAll tryCreateTableIfne s17
  let s19 := replaceAll (tryCreateIndexRewrite textColumns uniqueTextColumns) s18
  uniqueTextColumns.foldl
    (fun acc p => p.2.foldl (fun acc2 col => addUniqueTextIndex acc2 p.1 col) acc) s19

/-! ## Migration Runner

The runner loads the applied migration numbers once, then walks the
canonical files: an already-recorded number is skipped, otherwise the file's
translated statements are dispatched one by one.  On the MySQL path, a
duplicate-key error on a CREATE INDEX statement and a duplicate-column error
on an ALTER TABLE ADD COLUMN statement are treated as success-no-op; every
other statement error aborts the run, surfacing the failing migration's
number.  A successful file gets one bookkeeping row.

The engine is the environment: an oracle maps each dispatched (trimmed)
statement to success or an engine error.  The state carries the bookkeeping
rows and a trace of every statement dispatch, tagged with its migration
number; database state persists across an aborted run, so the runner returns
the state in every outcome. -/

/-- A canonical migration file: its numeric prefix and raw text. -/
structure MigFile where
  number : Nat
  sql : Str
deriving DecidableEq, Repr

/-- Database-side state of a run: bookkeeping rows (migration_number values,
in insertion order) and the dispatch trace. -/
structure RunState where
  bookkeeping : List Nat
  trace : List (Nat × Str)
deriving DecidableEq, Repr

/-- The empty database. -/
def emptyDb : RunState := { bookkeeping := [], trace := [] }

/-- Unanchored search for the CREATE INDEX classifier regex: CREATE,
whitespace, INDEX, whitespace, a word, whitespace, ON. -/
def tryCreateIndexPat (s : Str) : Option Str :=
  (litCI "create".data s).bind fun r1 =>
  (ws1 r1).bind fun r2 =>
  (litCI "index".data r2).bind fun r3 =>
  (ws1 r3).bind fun r4 =>
  (word1 r4).bind fun (idx, r5) =>
  (ws1 r5).bind fun r6 =>
  (litCI "on".data r6).map fun _ => idx

/-- Whether a statement is classified as a CREATE INDEX statement by the
runner's regex. -/
def isCreateIndexStmt (s : Str) : Bool := (firstHit tryCreateIndexPat s).isSome

/-- Unanchored search for the ALTER TABLE ADD COLUMN classifier regex. -/
def tryAlterAddColPat (s : Str) : Option (Str × Str) :=
  (tryAlterTbl s).bind fun pt =>
  (tryAddCol pt.2).map fun pc => (pt.1, pc.1)

/-- Whether a statement is classified as an ALTER TABLE ADD COLUMN
statement by the runner's regex. -/
def isAlterAddColumnStmt (s : Str) : Bool := (firstHit tryAlterAddColPat s).isSome

/-- The statements the MySQL path dispatches for one migration file: the
translated text split on semicolons, keeping pieces with nonempty trim. -/
def migStatements (sql : Str) : List Str :=
  (splitOnChar ';' (mysqlTranslate sql)).filter fun s => !(trimStr s).isEmpty

/-- The engine oracle: the error, if any, that executing a statement
raises. -/
abbrev ExecOracle := Str → Option SqlError

/-- The MySQL statement loop of the runner applied to one migration's
statement list.  Returns the trimmed statements dispatched (in order,
including a failing dispatch) and the first non-benign error. -/
def applyStmtsMySQL (outcome : ExecOracle) : List Str → List Str × Option SqlError
  | [] => ([], none)
  | st :: rest =>
    if (trimStr st).isEmpty then applyStmtsMySQL outcome rest
    else
      let t := trimStr st
      match outcome t with
      | none =>
        let p := applyStmtsMySQL outcome rest
        (t :: p.1, p.2)
      | some err =>
        if isCreateIndexStmt st then
          if err.code = some "ER_DUP_KEYNAME" ∨ err.errno = some 1061 then
            let p := applyStmtsMySQL outcome rest
            (t :: p.1, p.2)
          else ([t], some err)
        else if isAlterAddColumnStmt st then
          if err.code = some "ER_DUP_FIELDNAME" ∨ err.errno = some 1060 then
            let p := applyStmtsMySQL outcome rest
            (t :: p.1, p.2)
          else ([t], some err)
        else ([t], some err)

/-- The runner's file loop.  The applied set is the snapshot loaded before
the loop; it is not updated while the loop runs.  A file whose number is in
the snapshot is skipped.  Otherwise its statements are dispatched; on
success one bookkeeping row is inserted, on a non-benign error the run
aborts, surfacing the file's number. -/
def runMigrationsGo (outcome : ExecOracle) (applied : List Nat) :
    List MigFile → RunState → RunState × Option (Nat × SqlError)
  | [], st => (st, none)
  | f :: rest, st =>
    if f.number ∈ applied then runMigrationsGo outcome applied rest st
    else
      let p := applyStmtsMySQL outcome (migStatements f.sql)
      let st' : RunState :=
        { st with trace := st.trace ++ p.1.map fun s => (f.number, s) }
      match p.2 with
      | some e => (st', some (f.number, e))
      | none =>
        runMigrationsGo outcome applied rest
          { st' with bookkeeping := st'.bookkeeping ++ [f.number] }

/-- One invocation of the Migration Runner on the MySQL path: load the
applied numbers, then walk the files. -/
def runMigrations (outcome : ExecOracle) (files : List MigFile) (st : RunState) :
    RunState × Option (Nat × SqlError) :=
  runMigrationsGo outcome st.bookkeeping files st

/-- Trace entries belonging to one migration number. -/
def traceFor (n : Nat) (tr : List (Nat × Str)) : List (Nat × Str) :=
  tr.filter fun p => p.1 = n

/-- The trimmed statements a migration file dispatches to the engine. -/
def migDispatched (sql : Str) : List Str := (migStatements sql).map trimStr

/-- Tag a statement list with a migration number, as the dispatch trace
records it. -/
def tagTrace (n : Nat) (ss : List Str) : List (Nat × Str) := ss.map fun s => (n, s)

/-- A canonical migration declaring a multi-column UNIQUE constraint over
TEXT columns. -/
def migMultiUnique : Str := "CREATE TABLE t (a TEXT, b TEXT, UNIQUE(a, b));".data

/-- The canonical migration of the spec scenario: a table with a unique TEXT
column. -/
def migUniqueEmail : Str :=
  "CREATE TABLE tasks (id INTEGER PRIMARY KEY AUTOINCREMENT, email TEXT NOT NULL UNIQUE);".data

/-! # Theorems

Supporting lemmas come first, then one theorem per claim (with its witness
or counterexample where required). -/

/-- Digits produced by the decimal renderer: every character of the
accumulator-extending result is a digit when the accumulator's are. -/
theorem natStrGo_digits :
    ∀ (fuel n : Nat) (acc : Str), (∀ c ∈ acc, isDigitC c = true) →
      ∀ c ∈ natStrGo fuel n acc, isDigitC c = true := by
  intro fuel
  induction fuel with
  | zero => intro n acc hacc; simpa [natStrGo] using hacc
  | succ f ih =>
    intro n acc hacc c hc
    have hdig : isDigitC (Char.ofNat (n % 10 + 48)) = true := by
      have h10 : n % 10 < 10 := Nat.mod_lt _ (by norm_num)
      set k := n % 10 with hk
      interval_cases k <;> decide
    simp only [natStrGo] at hc
    by_cases hlt : n < 10
    · simp only [if_pos hlt] at hc
      rcases List.mem_cons.mp hc with h | h
      · exact h ▸ hdig
      · exact hacc c h
    · simp only [if_neg hlt] at hc
      refine ih (n / 10) _ ?_ c hc
      intro c' hc'
      rcases List.mem_cons.mp hc' with h | h
      · exact h ▸ hdig
      · exact hacc c' h

/-- Every character of the decimal rendering is a digit. -/
theorem natStr_digits (n : Nat) : ∀ c ∈ natStr n, isDigitC c = true :=
  natStrGo_digits (n + 1) n [] (by simp)

/-- The renderer only grows the accumulator at the front. -/
theorem natStrGo_suffix :
    ∀ (fuel n : Nat) (acc : Str), ∃ pre : Str, natStrGo fuel n acc = pre ++ acc := by
  intro fuel
  induction fuel with
  | zero => intro n acc; exact ⟨[], rfl⟩
  | succ f ih =>
    intro n acc
    by_cases hlt : n < 10
    · exact ⟨[Char.ofNat (n % 10 + 48)], by simp [natStrGo, hlt]⟩
    · obtain ⟨pre, hpre⟩ := ih (n / 10) (Char.ofNat (n % 10 + 48) :: acc)
      exact ⟨pre ++ [Char.ofNat (n % 10 + 48)], by simp [natStrGo, hlt, hpre]⟩

/-- The decimal rendering is nonempty. -/
theorem natStr_ne_nil (n : Nat) : natStr n ≠ [] := by
  unfold natStr
  by_cases hlt : n < 10
  · simp [natStrGo, hlt]
  · obtain ⟨pre, hpre⟩ := natStrGo_suffix n (n / 10) [Char.ofNat (n % 10 + 48)]
    simp [natStrGo, hlt, hpre]

/-- A padded component is exactly two digit characters when its value is at
most 99. -/
theorem pad2_two (m : Nat) (hm : m ≤ 99) :
    (pad2 m).length = 2 ∧ ∀ c ∈ pad2 m, isDigitC c = true := by
  interval_cases m <;> exact ⟨by decide, by decide⟩

/-- Obtain the two digit characters of a padded component. -/
theorem pad2_pair (m : Nat) (hm : m ≤ 99) :
    ∃ a b, pad2 m = [a, b] ∧ isDigitC a = true ∧ isDigitC b = true := by
  obtain ⟨hlen, hall⟩ := pad2_two m hm
  obtain ⟨a, b, hab⟩ := List.length_eq_two.mp hlen
  exact ⟨a, b, hab, hall a (by simp [hab]), hall b (by simp [hab])⟩

/-- The shape checker accepts a nonempty all-digit year run followed by a
dash-led text with the fixed tail shape. -/
theorem sqlDateTimeShape_of_parts :
    ∀ (y rest : Str), y ≠ [] → (∀ c ∈ y, isDigitC c = true) →
      rest.head? = some '-' → sqlTailShape rest = true →
      sqlDateTimeShape (y ++ rest) = true := by
  have go :
      ∀ (y rest : Str), (∀ c ∈ y, isDigitC c = true) →
        rest.head? = some '-' → sqlTailShape rest = true →
        sqlDateTimeShape.sqlDateTimeShapeGo (y ++ rest) = true := by
    intro y
    induction y with
    | nil =>
      intro rest _ hhd hrest
      match rest, hhd with
      | c :: cs, hhd =>
        have hc : c = '-' := by simpa using hhd
        subst hc
        simp [sqlDateTimeShape.sqlDateTimeShapeGo, hrest, isDigitC]
    | cons c cs ih =>
      intro rest hall hhd hrest
      have hc : isDigitC c = true := hall c (by simp)
      simpa [sqlDateTimeShape.sqlDateTimeShapeGo, hc]
        using ih rest (fun c' hc' => hall c' (by simp [hc'])) hhd hrest
  intro y rest hne hall hhd hrest
  match y, hne with
  | c :: cs, _ =>
    have hc : isDigitC c = true := hall c (by simp)
    simpa [sqlDateTimeShape, hc]
      using go cs rest (fun c' hc' => hall c' (by simp [hc'])) hhd hrest

/-- C3 counterexample: the claim asserts that every adapter replaces NaN by 0
and undefined by null before dispatch.  The PostgreSQL bound statement
dispatches the list [NaN, "x", undefined] unchanged, not as [0, "x", null]. -/
theorem c3_counterexample :
    postgresBindValues [JSVal.nan, JSVal.str ['x'], JSVal.undef]
      ≠ [JSVal.num 0, JSVal.str ['x'], JSVal.jsNull] := by
  decide

/-- C3 (amended): only the MySQL adapter sanitizes bound parameters before
dispatch — binding [NaN, "x", undefined] there dispatches [0, "x", null] —
while the PostgreSQL and embedded SQLite bound statements dispatch every
bound list verbatim, with no NaN or undefined replacement. -/
theorem c3_nan_undefined_sanitization :
    (∀ jd : JsDateOf,
       mysqlBindValues jd [JSVal.nan, JSVal.str ['x'], JSVal.undef]
         = .ok [JSVal.num 0, JSVal.str ['x'], JSVal.jsNull])
    ∧ (∀ vs : List JSVal, postgresBindValues vs = vs)
    ∧ (∀ vs : List JSVal, sqliteBindValues vs = vs) :=
  ⟨fun _ => rfl, fun _ => rfl, fun _ => rfl⟩

/-- C4 counterexample: the claim asserts every Date object in a bound list
is converted to the literal form and that the other values are still
processed.  An Invalid Date object (NaN time value) makes the conversion
throw instead, aborting the whole list before the remaining values are
reached. -/
theorem c4_counterexample :
    convertDatesForMySQL isoParseUTC [JSVal.date none, JSVal.str ['x']]
      = .error invalidDateMsg := rfl

/-- C4 (amended): for values bound on the MySQL adapter, a valid Date object
is converted to the YYYY-MM-DD HH:MM:SS literal built from its local-time
parts; a string with the ISO date-time prefix is converted the same way when
the environment can parse it and is left unchanged when parsing fails, with
the failure caught for that value alone so that surrounding values are still
processed; date-only strings and strings without the ISO prefix pass through
unchanged, as does every non-string non-Date value; an Invalid Date object,
however, throws and aborts the whole list.  The built literal has the
YYYY-MM-DD HH:MM:SS digit shape for the component ranges the Date getters
produce. -/
theorem c4_date_coercion (jd : JsDateOf) :
    (∀ d, convertOne jd (.date (some d)) = .ok (.str (formatDateTime d)))
    ∧ (∀ s d, matchIsoDateTimePre s = true → jd s = some d →
        convertOne jd (.str s) = .ok (.str (formatDateTime d)))
    ∧ (∀ s, matchIsoDateTimePre s = true → jd s = none →
        convertOne jd (.str s) = .ok (.str s))
    ∧ (∀ s, matchIsoDateTimePre s = false → convertOne jd (.str s) = .ok (.str s))
    ∧ (∀ v, (∀ s, v ≠ .str s) → (∀ t, v ≠ .date t) → convertOne jd v = .ok v)
    ∧ (∀ pre v post l1 w l2,
        convertDatesForMySQL jd pre = .ok l1 → convertOne jd v = .ok w →
        convertDatesForMySQL jd post = .ok l2 →
        convertDatesForMySQL jd (pre ++ v :: post) = .ok (l1 ++ w :: l2))
    ∧ (∀ d : DateParts, d.month0 ≤ 11 → d.day ≤ 31 → d.hour ≤ 23 →
        d.minute ≤ 59 → d.second ≤ 59 →
        sqlDateTimeShape (formatDateTime d) = true) := by
  refine ⟨fun d => rfl, ?_, ?_, ?_, ?_, ?_, ?_⟩
  · intro s d h1 h2
    simp [convertOne, h1, toMySQLDateTimeOfStr, toMySQLDateTimeOfDate, h2]
  · intro s h1 h2
    simp [convertOne, h1, toMySQLDateTimeOfStr, toMySQLDateTimeOfDate, h2]
  · intro s h
    simp [convertOne, h]
  · intro v hs hd
    cases v with
    | str s => exact absurd rfl (hs s)
    | date t => exact absurd rfl (hd t)
    | _ => rfl
  · intro pre
    induction pre with
    | nil =>
      intro v post l1 w l2 h1 h2 h3
      simp only [convertDatesForMySQL] at h1
      cases h1
      simp [convertDatesForMySQL, h2, h3]
    | cons x xs ih =>
      intro v post l1 w l2 h1 h2 h3
      simp only [convertDatesForMySQL] at h1
      cases hx : convertOne jd x with
      | error e => simp [hx] at h1
      | ok wx =>
        simp only [hx] at h1
        cases hxs : convertDatesForMySQL jd xs with
        | error e => simp [hxs] at h1
        | ok ws =>
          simp only [hxs] at h1
          cases h1
          have := ih v post ws w l2 hxs h2 h3
          simp [convertDatesForMySQL, hx, this]
  · intro d hmo hday hhour hmin hsec
    obtain ⟨a, b, hab, ha, hb⟩ := pad2_pair (d.month0 + 1) (by omega)
    obtain ⟨c2, d2, hcd, hc2, hd2⟩ := pad2_pair d.day (by omega)
    obtain ⟨e, f, hef, he, hf⟩ := pad2_pair d.hour (by omega)
    obtain ⟨g, h, hgh, hg, hh⟩ := pad2_pair d.minute (by omega)
    obtain ⟨i, j, hij, hi, hj⟩ := pad2_pair d.second (by omega)
    have : formatDateTime d
        = natStr d.year ++
          ('-' :: a :: b :: '-' :: c2 :: d2 :: ' ' :: e :: f :: ':' :: g :: h
            :: ':' :: i :: j :: []) := by
      simp [formatDateTime, hab, hcd, hef, hgh, hij]
    rw [this]
    refine sqlDateTimeShape_of_parts _ _ (natStr_ne_nil d.year)
      (natStr_digits d.year) rfl ?_
    simp [sqlTailShape, ha, hb, hc2, hd2, he, hf, hg, hh, hi, hj]

/-- C4 witness: the amended coercion theorem applied at concrete inputs — a
parseable ISO string is converted to the literal form, an unparseable one is
left unchanged without aborting the surrounding list, and the literal shape
holds for a concrete date. -/
theorem c4_witness :
    convertOne isoParseUTC (.str "2026-01-19T14:10:34.278Z".data)
      = .ok (.str "2026-01-19 14:10:34".data)
    ∧ convertOne isoParseUTC (.str "2026-99-99T99:99:99".data)
      = .ok (.str "2026-99-99T99:99:99".data)
    ∧ convertDatesForMySQL isoParseUTC
        [JSVal.num 5, JSVal.str "2026-99-99T99:99:99".data, JSVal.str "2026-01-19".data]
      = .ok [JSVal.num 5, JSVal.str "2026-99-99T99:99:99".data,
             JSVal.str "2026-01-19".data]
    ∧ sqlDateTimeShape (formatDateTime ⟨2026, 0, 19, 14, 10, 34⟩) = true := by
  obtain ⟨h1, h2, h3, h4, h5, h6, h7⟩ := c4_date_coercion isoParseUTC
  refine ⟨?_, ?_, ?_, ?_⟩
  · exact h2 _ ⟨2026, 0, 19, 14, 10, 34⟩ (by decide) (by decide)
  · exact h3 _ (by decide) (by decide)
  · exact h6 [JSVal.num 5] (JSVal.str "2026-99-99T99:99:99".data)
      [JSVal.str "2026-01-19".data] _ _ _ rfl (h3 _ (by decide) (by decide)) rfl
  · exact h7 _ (by decide) (by decide) (by decide) (by decide) (by decide)

/-- C5 counterexample: the claim asserts every adapter operation propagates a
failed statement's engine error.  The bound MySQL first() catches the driver
error and returns null instead. -/
theorem c5_counterexample :
    mysqlFirstB none (.error { code := some "ER_NO_SUCH_TABLE", errno := some 1146 })
      = .ok none := rfl

/-- C5 (amended): run(), all(), raw() and exec() propagate a driver error to
the caller on every adapter, bound or unbound, and so does first() on the
embedded SQLite adapter; but first() on the MySQL and PostgreSQL adapters —
bound and unbound — catches the error and returns null instead of
propagating it. -/
theorem c5_error_propagation (e : SqlError) (colName : Option String) (cn : Bool) :
    (mysqlRunB (.error e) = .error e ∧ mysqlRunU (.error e) = .error e
      ∧ mysqlAllB (.error e) = .error e ∧ mysqlAllU (.error e) = .error e
      ∧ mysqlRawB cn (.error e) = .error e ∧ mysqlRawU cn (.error e) = .error e)
    ∧ (pgRunB (.error e) = .error e ∧ pgRunU (.error e) = .error e
      ∧ pgAllB (.error e) = .error e ∧ pgAllU (.error e) = .error e
      ∧ pgRawB (.error e) = .error e ∧ pgRawU (.error e) = .error e)
    ∧ (sqliteRunB (.error e) = .error e ∧ sqliteRunU (.error e) = .error e
      ∧ sqliteAllB (.error e) = .error e ∧ sqliteAllU (.error e) = .error e
      ∧ sqliteRawB cn (.error e) = .error e ∧ sqliteRawU cn (.error e) = .error e
      ∧ sqliteFirstB colName (.error e) = .error e
      ∧ sqliteFirstU colName (.error e) = .error e)
    ∧ (∀ (o : Str → Except SqlError MysqlReply) (st : Str) (rest : List Str),
        (trimStr st).isEmpty = false → o st = .error e →
        mysqlExecGo o (st :: rest) = .error e)
    ∧ (∀ (o : Str → Except SqlError PgReply) (st : Str) (rest : List Str),
        (trimStr st).isEmpty = false → o st = .error e →
        pgExecGo o (st :: rest) = .error e)
    ∧ (∀ (o : Str → Except SqlError SqliteRunReply) (st : Str) (rest : List Str),
        (trimStr st).isEmpty = false → o st = .error e →
        sqliteExecGo o (st :: rest) = .error e)
    ∧ (mysqlFirstB colName (.error e) = .ok none
      ∧ mysqlFirstU colName (.error e) = .ok none
      ∧ pgFirstB colName (.error e) = .ok none
      ∧ pgFirstU colName (.error e) = .ok none) := by
  refine ⟨⟨rfl, rfl, rfl, rfl, rfl, rfl⟩, ⟨rfl, rfl, rfl, rfl, rfl, rfl⟩,
    ⟨rfl, rfl, rfl, rfl, rfl, rfl, rfl, rfl⟩, ?_, ?_, ?_, ⟨rfl, rfl, rfl, rfl⟩⟩
  · intro o st rest h1 h2
    simp [mysqlExecGo, h1, h2]
  · intro o st rest h1 h2
    simp [pgExecGo, h1, h2]
  · intro o st rest h1 h2
    simp [sqliteExecGo, h1, h2]

/-- C5 witness: the amended propagation theorem applied at a concrete engine
error and a concrete failing exec statement. -/
theorem c5_witness :
    mysqlRunB (.error { code := some "ER_PARSE_ERROR", errno := some 1064 })
      = .error { code := some "ER_PARSE_ERROR", errno := some 1064 }
    ∧ mysqlExecGo
        (fun _ => .error { code := some "ER_PARSE_ERROR", errno := some 1064 })
        ["SELECT 1".data]
      = .error { code := some "ER_PARSE_ERROR", errno := some 1064 } := by
  obtain ⟨hm, _, _, hexec, _, _, _⟩ :=
    c5_error_propagation { code := some "ER_PARSE_ERROR", errno := some 1064 } none false
  exact ⟨hm.1, hexec (fun _ => .error _) ("SELECT 1".data) [] (by decide) rfl⟩

/-- C8 counterexample: the claim asserts run() on an INSERT yields a non-null
insertedId on each of the three adapters.  On PostgreSQL the adapter derives
it from the first returned row's id column, so a plain INSERT (which returns
no rows) yields a null last_insert_rowid — and the envelope carries no
last_row_id key at all. -/
theorem c8_counterexample :
    pgRunB (.ok pgPlainInsertReply) = .ok (pgRunEnvelope pgPlainInsertReply)
    ∧ (pgRunEnvelope pgPlainInsertReply).meta.lastInsertRowid = MetaVal.vnull
    ∧ (pgRunEnvelope pgPlainInsertReply).meta.lastRowId = MetaVal.absent := by
  exact ⟨rfl, rfl, rfl⟩

/-- Finding an appended pair whose key no earlier pair carries. -/
theorem find_append_last (xs : List (Nat × Row)) (n : Nat) (r : Row)
    (h : ∀ p ∈ xs, p.1 ≠ n) :
    (xs ++ [(n, r)]).find? (fun p => p.1 = n) = some (n, r) := by
  induction xs with
  | nil => simp
  | cons x xs ih =>
    have hx : decide (x.1 = n) = false := by
      simp only [decide_eq_false_iff_not]
      exact h x (by simp)
    simp only [List.cons_append, List.find?, hx]
    exact ih fun p hp => h p (by simp [hp])

/-- Finding a row by an id larger than every stored id after appending it. -/
theorem selectById_insert (t : AutoTable) (r : Row)
    (hinv : ∀ p ∈ t.rowsTbl, p.1 < t.nextId) :
    selectById (insertRow t r).1 t.nextId = some r := by
  have h : (t.rowsTbl ++ [(t.nextId, r)]).find? (fun p => p.1 = t.nextId)
      = some (t.nextId, r) :=
    find_append_last _ _ _ fun p hp => Nat.ne_of_lt (hinv p hp)
  simp [selectById, insertRow, h]

/-- C8 (amended): on the embedded SQLite and MySQL adapters, run() on an
INSERT returns an envelope whose last_insert_rowid is the id just assigned,
and the inserted row is retrievable under that id; on PostgreSQL the
insertedId is derived from the first returned row's id column, which is null
for a plain INSERT and equals the assigned id only when the statement itself
returns it (INSERT ... RETURNING id). -/
theorem c8_inserted_id (t : AutoTable) (r : Row)
    (hpos : 1 ≤ t.nextId) (hinv : ∀ p ∈ t.rowsTbl, p.1 < t.nextId) :
    (sqliteRunB (.ok (sqliteInsertReply t.nextId))
        = .ok (sqliteRunEnvelope (sqliteInsertReply t.nextId))
      ∧ (sqliteRunEnvelope (sqliteInsertReply t.nextId)).meta.lastInsertRowid
        = MetaVal.vnum t.nextId)
    ∧ (mysqlRunB (.ok (mysqlInsertReply t.nextId))
        = .ok (mysqlRunEnvelope (mysqlInsertReply t.nextId))
      ∧ (mysqlRunEnvelope (mysqlInsertReply t.nextId)).meta.lastInsertRowid
        = MetaVal.vnum t.nextId)
    ∧ selectById (insertRow t r).1 t.nextId = some r
    ∧ (pgRunEnvelope pgPlainInsertReply).meta.lastInsertRowid = MetaVal.vnull
    ∧ (pgRunEnvelope (pgReturningInsertReply t.nextId)).meta.lastInsertRowid
      = MetaVal.vnum t.nextId := by
  have hne : t.nextId ≠ 0 := by omega
  refine ⟨⟨rfl, rfl⟩, ⟨rfl, ?_⟩, selectById_insert t r hinv, rfl, ?_⟩
  · simp [mysqlRunEnvelope, mysqlInsertReply, MysqlReply.insertIdOrNull, hne]
  · have : (t.nextId : Int) ≠ 0 := by exact_mod_cast hne
    simp [pgRunEnvelope, pgReturningInsertReply, PgReply.firstIdOrNull, jsOrNullVal, this]

/-- C8 witness: the amended insertedId theorem applied to a concrete insert
into a fresh table. -/
theorem c8_witness :
    (mysqlRunEnvelope (mysqlInsertReply 1)).meta.lastInsertRowid = MetaVal.vnum 1
    ∧ selectById (insertRow ⟨1, []⟩ [("title", JSVal.str ['a'])]).1 1
      = some [("title", JSVal.str ['a'])] := by
  obtain ⟨_, ⟨_, hm⟩, hsel, _, _⟩ :=
    c8_inserted_id ⟨1, []⟩ [("title", JSVal.str ['a'])] (by decide) (by simp)
  exact ⟨hm, hsel⟩

/-- Batch dispatch produces one result per input statement. -/
theorem batchVia_length {σ : Type} (step : Str → σ → Except SqlError Envelope × σ) :
    ∀ (stmts : List Str) (s : σ), (batchVia step stmts s).1.length = stmts.length := by
  intro stmts
  induction stmts with
  | nil => intro s; rfl
  | cons q qs ih => intro s; simp [batchVia, ih]

/-- Batch dispatch threads the driver state left to right in input order. -/
theorem batchVia_state {σ : Type} (step : Str → σ → Except SqlError Envelope × σ) :
    ∀ (stmts : List Str) (s : σ),
      (batchVia step stmts s).2 = stmts.foldl (fun t q => (step q t).2) s := by
  intro stmts
  induction stmts with
  | nil => intro s; rfl
  | cons q qs ih => intro s; simp [batchVia, ih]

/-- The i-th batch result is the step applied to the i-th statement in the
state reached by dispatching the statements before it. -/
theorem batchVia_get {σ : Type} (step : Str → σ → Except SqlError Envelope × σ) :
    ∀ (stmts : List Str) (s : σ) (i : Nat),
      (batchVia step stmts s).1[i]? = (stmts[i]?).map fun q =>
        (step q ((stmts.take i).foldl (fun t q' => (step q' t).2) s)).1 := by
  intro stmts
  induction stmts with
  | nil => intro s i; simp [batchVia]
  | cons q qs ih =>
    intro s i
    cases i with
    | zero => simp [batchVia]
    | succ n => simp [batchVia, ih ((step q s).2) n]

/-- C9: on each of the three adapters, batch() returns exactly one result
envelope per input statement, the envelope at position i is produced by the
all() execution of statement i, and the driver state evolves by dispatching
the statements in input order (execution order equals input order in the
sequential dispatch model). -/
theorem c9_batch_one_envelope_per_statement {σ : Type}
    (execM : Str → σ → Except SqlError MysqlReply × σ)
    (execP : Str → σ → Except SqlError PgReply × σ)
    (execS : Str → σ → Except SqlError (List Row) × σ)
    (stmts : List Str) (s : σ) :
    ((mysqlBatch execM stmts s).1.length = stmts.length
      ∧ (mysqlBatch execM stmts s).2
        = stmts.foldl (fun t q => (execM q t).2) s
      ∧ ∀ i, (mysqlBatch execM stmts s).1[i]? = (stmts[i]?).map fun q =>
          mysqlAllB (execM q ((stmts.take i).foldl (fun t q' => (execM q' t).2) s)).1)
    ∧ ((pgBatch execP stmts s).1.length = stmts.length
      ∧ (pgBatch execP stmts s).2
        = stmts.foldl (fun t q => (execP q t).2) s
      ∧ ∀ i, (pgBatch execP stmts s).1[i]? = (stmts[i]?).map fun q =>
          pgAllB (execP q ((stmts.take i).foldl (fun t q' => (execP q' t).2) s)).1)
    ∧ ((sqliteBatch execS stmts s).1.length = stmts.length
      ∧ (sqliteBatch execS stmts s).2
        = stmts.foldl (fun t q => (execS q t).2) s
      ∧ ∀ i, (sqliteBatch execS stmts s).1[i]? = (stmts[i]?).map fun q =>
          sqliteAllB (execS q ((stmts.take i).foldl (fun t q' => (execS q' t).2) s)).1) := by
  refine ⟨⟨?_, ?_, ?_⟩, ⟨?_, ?_, ?_⟩, ⟨?_, ?_, ?_⟩⟩
  · exact batchVia_length _ stmts s
  · exact batchVia_state _ stmts s
  · exact fun i => batchVia_get _ stmts s i
  · exact batchVia_length _ stmts s
  · exact batchVia_state _ stmts s
  · exact fun i => batchVia_get _ stmts s i
  · exact batchVia_length _ stmts s
  · exact batchVia_state _ stmts s
  · exact fun i => batchVia_get _ stmts s i

/-- Batch dispatch coincides with the monadic map of the per-statement all()
step over the input list (the specification-side reading of the batch
contract). -/
theorem batchVia_eq_specBatch {σ : Type}
    (step : Str → σ → Except SqlError Envelope × σ) :
    ∀ (stmts : List Str) (s : σ),
      batchVia step stmts s = specBatchStateM step stmts s := by
  intro stmts
  induction stmts with
  | nil => intro s; rfl
  | cons q qs ih =>
    intro s
    simp only [batchVia, specBatchStateM, List.mapM_cons]
    simp only [specBatchStateM] at ih
    simp [Bind.bind, StateT.bind, ih, pure, StateT.pure]
    rfl

/-- C10: on each of the three adapters, batch() is extensionally the monadic
map of all() over the input statements, and the all() envelope — also when a
write statement is dispatched through it — carries only row-count meta
(rows_read, and rows_written fixed at 0): the changes, last_insert_rowid and
last_row_id keys are absent from its meta. -/
theorem c10_batch_is_map_all {σ : Type}
    (execM : Str → σ → Except SqlError MysqlReply × σ)
    (execP : Str → σ → Except SqlError PgReply × σ)
    (execS : Str → σ → Except SqlError (List Row) × σ)
    (stmts : List Str) (s : σ) :
    (mysqlBatch execM stmts s
      = specBatchStateM (fun q t => ((mysqlAllB (execM q t).1), (execM q t).2)) stmts s)
    ∧ (pgBatch execP stmts s
      = specBatchStateM (fun q t => ((pgAllB (execP q t).1), (execP q t).2)) stmts s)
    ∧ (sqliteBatch execS stmts s
      = specBatchStateM (fun q t => ((sqliteAllB (execS q t).1), (execS q t).2)) stmts s)
    ∧ (∀ reply : MysqlReply,
        (mysqlAllEnvelope reply).meta.changes = MetaVal.absent
        ∧ (mysqlAllEnvelope reply).meta.lastInsertRowid = MetaVal.absent
        ∧ (mysqlAllEnvelope reply).meta.lastRowId = MetaVal.absent
        ∧ (mysqlAllEnvelope reply).meta.rowsWritten = MetaVal.vnum 0
        ∧ (mysqlAllEnvelope reply).results.isSome = true)
    ∧ (∀ reply : PgReply,
        (pgAllEnvelope reply).meta.changes = MetaVal.absent
        ∧ (pgAllEnvelope reply).meta.lastInsertRowid = MetaVal.absent
        ∧ (pgAllEnvelope reply).meta.lastRowId = MetaVal.absent
        ∧ (pgAllEnvelope reply).meta.rowsWritten = MetaVal.vnum 0
        ∧ (pgAllEnvelope reply).results.isSome = true)
    ∧ (∀ rows : List Row,
        (sqliteAllEnvelope rows).meta.changes = MetaVal.absent
        ∧ (sqliteAllEnvelope rows).meta.lastInsertRowid = MetaVal.absent
        ∧ (sqliteAllEnvelope rows).meta.lastRowId = MetaVal.absent
        ∧ (sqliteAllEnvelope rows).meta.rowsWritten = MetaVal.vnum 0
        ∧ (sqliteAllEnvelope rows).results.isSome = true) := by
  refine ⟨?_, ?_, ?_, ?_, ?_, ?_⟩
  · exact batchVia_eq_specBatch _ stmts s
  · exact batchVia_eq_specBatch _ stmts s
  · exact batchVia_eq_specBatch _ stmts s
  · exact fun reply => ⟨rfl, rfl, rfl, rfl, rfl⟩
  · exact fun reply => ⟨rfl, rfl, rfl, rfl, rfl⟩
  · exact fun rows => ⟨rfl, rfl, rfl, rfl, rfl⟩

/-- A case-insensitive literal match leaves a suffix of the input. -/
theorem litCI_sfx : ∀ (p s r : Str), litCI p s = some r → r <:+ s := by
  intro p
  induction p with
  | nil =>
    intro s r h
    simp only [litCI, Option.some_inj] at h
    exact h ▸ List.suffix_refl s
  | cons pc ps ih =>
    intro s r h
    cases s with
    | nil => simp [litCI] at h
    | cons c cs =>
      simp only [litCI] at h
      by_cases hc : lowerC c = lowerC pc
      · rw [if_pos hc] at h
        exact (ih cs r h).trans (List.suffix_cons c cs)
      · rw [if_neg hc] at h
        cases h

/-- A case-sensitive literal match leaves a suffix of the input. -/
theorem litCS_sfx : ∀ (p s r : Str), litCS p s = some r → r <:+ s := by
  intro p
  induction p with
  | nil =>
    intro s r h
    simp only [litCS, Option.some_inj] at h
    exact h ▸ List.suffix_refl s
  | cons pc ps ih =>
    intro s r h
    cases s with
    | nil => simp [litCS] at h
    | cons c cs =>
      simp only [litCS] at h
      by_cases hc : c = pc
      · rw [if_pos hc] at h
        exact (ih cs r h).trans (List.suffix_cons c cs)
      · rw [if_neg hc] at h
        cases h

/-- A successful take-until means the stop character occurs in the input. -/
theorem takeUntilChar_mem :
    ∀ (stop : Char) (s : Str) (pr : Str × Str),
      takeUntilChar stop s = some pr → stop ∈ s := by
  intro stop s
  induction s with
  | nil => intro pr h; simp [takeUntilChar] at h
  | cons c cs ih =>
    intro pr h
    simp only [takeUntilChar] at h
    by_cases hc : c = stop
    · exact hc ▸ List.mem_cons_self c cs
    · rw [if_neg hc] at h
      cases h2 : takeUntilChar stop cs with
      | none => rw [h2] at h; cases h
      | some pr2 => exact List.mem_cons_of_mem c (ih pr2 h2)

/-- The taken part of a take-until never contains the stop character. -/
theorem takeUntilChar_taken :
    ∀ (stop : Char) (s : Str) (pr : Str × Str),
      takeUntilChar stop s = some pr → stop ∉ pr.1 := by
  intro stop s
  induction s with
  | nil => intro pr h; simp [takeUntilChar] at h
  | cons c cs ih =>
    intro pr h
    simp only [takeUntilChar] at h
    by_cases hc : c = stop
    · rw [if_pos hc] at h
      cases h
      simp
    · rw [if_neg hc] at h
      cases h2 : takeUntilChar stop cs with
      | none => rw [h2] at h; cases h
      | some pr2 =>
        rw [h2, Option.map_some'] at h
        cases h
        intro hmem
        rcases List.mem_cons.mp hmem with h | h
        · exact hc h.symm
        · exact ih pr2 h2 h

/-- Without a closing parenthesis in the input, the inline unique-clause
scanner cannot match. -/
theorem tryUniqueParen_none (s : Str) (h : ')' ∉ s) : tryUniqueParen s = none := by
  cases htry : tryUniqueParen s with
  | none => rfl
  | some pr =>
    exfalso
    simp only [tryUniqueParen] at htry
    cases h1 : litCI "unique".data s with
    | none => rw [h1, Option.none_bind] at htry; cases htry
    | some r1 =>
      rw [h1, Option.some_bind] at htry
      cases h2 : litCS ['('] (ws0 r1) with
      | none => rw [h2, Option.none_bind] at htry; cases htry
      | some r3 =>
        rw [h2, Option.some_bind] at htry
        cases h3 : takeUntilChar ')' r3 with
        | none => rw [h3, Option.none_bind] at htry; cases htry
        | some pr2 =>
          have hr3 : ')' ∈ r3 := takeUntilChar_mem ')' r3 pr2 h3
          have hsub1 : r3 <:+ ws0 r1 := litCS_sfx _ _ _ h2
          have hsub2 : ws0 r1 <:+ r1 := List.dropWhile_suffix _
          have hsub3 : r1 <:+ s := litCI_sfx _ _ _ h1
          exact h (hsub3.subset (hsub2.subset (hsub1.subset hr3)))

/-- A first-hit search fails when the matcher fails on every suffix. -/
theorem firstHit_none {α : Type} (f : Str → Option α) :
    ∀ s : Str, (∀ t, t <:+ s → f t = none) → firstHit f s = none := by
  intro s
  induction s with
  | nil => intro h; simpa [firstHit] using h [] (List.suffix_refl [])
  | cons c cs ih =>
    intro h
    have hc : f (c :: cs) = none := h (c :: cs) (List.suffix_refl _)
    simp only [firstHit, hc]
    exact ih fun t ht => h t (ht.trans (List.suffix_cons c cs))

/-- The table-header scanner's column capture never contains a closing
parenthesis. -/
theorem tryCreateTableHead_no_rparen (s : Str) (pr : Str × Str × Str)
    (h : tryCreateTableHead s = some pr) : ')' ∉ pr.2.1 := by
  simp only [tryCreateTableHead] at h
  cases h1 : litCI "create table".data s with
  | none => rw [h1, Option.none_bind] at h; cases h
  | some r1 =>
    rw [h1, Option.some_bind] at h
    cases h2 : ws1 r1 with
    | none => rw [h2, Option.none_bind] at h; cases h
    | some r2 =>
      rw [h2, Option.some_bind] at h
      cases h3 : word1 r2 with
      | none => rw [h3, Option.none_bind] at h; cases h
      | some pw =>
        rw [h3, Option.some_bind] at h
        cases h4 : litCS ['('] (ws0 pw.2) with
        | none => rw [h4, Option.none_bind] at h; cases h
        | some r5 =>
          rw [h4, Option.some_bind] at h
          cases h5 : takeUntilChar ')' r5 with
          | none => rw [h5, Option.none_bind] at h; cases h
          | some pc =>
            rw [h5, Option.some_bind] at h
            have htaken := takeUntilChar_taken ')' r5 pc h5
            by_cases hemp : pc.1.isEmpty
            · rw [if_pos hemp] at h; cases h
            · rw [if_neg hemp] at h
              cases hrest : pc.2 with
              | nil => rw [hrest] at h; cases h
              | cons c7 r7 =>
                rw [hrest] at h
                cases h
                exact htaken

/-- Every column-definition capture extracted from a migration text is free
of closing parentheses. -/
theorem findCreateTables_no_rparen :
    ∀ (fuel : Nat) (s : Str) (p : Str × Str),
      p ∈ findCreateTables fuel s → ')' ∉ p.2 := by
  intro fuel
  induction fuel with
  | zero => intro s p hp; simp [findCreateTables] at hp
  | succ f ih =>
    intro s p hp
    cases s with
    | nil => simp [findCreateTables] at hp
    | cons c cs =>
      simp only [findCreateTables] at hp
      cases htry : tryCreateTableHead (c :: cs) with
      | none =>
        rw [htry] at hp
        exact ih cs p hp
      | some pr =>
        rw [htry] at hp
        rcases List.mem_cons.mp hp with h | h
        · have := tryCreateTableHead_no_rparen (c :: cs) pr htry
          rw [h]
          exact this
        · exact ih pr.2.2 p h

/-- The multi-column unique detection is dead code: for every migration text
and every TEXT-column map, it finds nothing, because the column-definition
capture it searches can never contain the closing parenthesis its regex
requires. -/
theorem multiColumnUnique_dead (textColumns : List (Str × List Str)) (sql : Str) :
    multiColumnUniqueConstraintsOf textColumns sql = [] := by
  unfold multiColumnUniqueConstraintsOf
  have hnone : ∀ p ∈ extractTables sql, findUniqueParen p.2 = none := by
    intro p hp
    have hnr : ')' ∉ p.2 := findCreateTables_no_rparen _ _ p hp
    unfold findUniqueParen
    refine firstHit_none _ _ fun t ht => ?_
    rw [tryUniqueParen_none t fun hmem => hnr (ht.subset hmem)]
    rfl
  generalize extractTables sql = tables at hnone
  induction tables with
  | nil => rfl
  | cons tb tbs ih =>
    have h1 := hnone tb (by simp)
    simp only [List.foldl, h1]
    exact ih fun p hp => hnone p (by simp [hp])

/-- C6: the Migration Dialect Translator silently drops a multi-column
UNIQUE constraint that involves TEXT columns: the detection that should
re-emit it as CREATE UNIQUE INDEX with 255-prefix lengths can never match
(first conjunct, for every input), so the failing migration translates to a
table with no UNIQUE clause and no index at all (no occurrence of the word
UNIQUE survives), while the single-column scenario of the spec does produce
the prefixed CREATE UNIQUE INDEX. -/
theorem c6_unique_text_translation :
    (∀ (textColumns : List (Str × List Str)) (sql : Str),
      multiColumnUniqueConstraintsOf textColumns sql = [])
    ∧ mysqlTranslate migMultiUnique
      = "CREATE TABLE IF NOT EXISTS t (a TEXT, b TEXT);".data
    ∧ containsCI "unique".data (mysqlTranslate migMultiUnique) = false
    ∧ mysqlTranslate migUniqueEmail
      = ("CREATE TABLE IF NOT EXISTS tasks (id INT AUTO_INCREMENT PRIMARY KEY, email TEXT NOT NULL);\nCREATE UNIQUE INDEX idx_tasks_email_unique ON tasks(email(255));").data := by
  exact ⟨multiColumnUnique_dead, by decide, by decide, by decide⟩

/-- With an all-success engine, the statement loop dispatches every
nonempty-trim statement, trimmed, and reports no error. -/
theorem applyStmts_success (outcome : ExecOracle) (hok : ∀ s, outcome s = none) :
    ∀ stmts : List Str,
      applyStmtsMySQL outcome stmts
        = ((stmts.filter fun s => !(trimStr s).isEmpty).map trimStr, none) := by
  intro stmts
  induction stmts with
  | nil => rfl
  | cons st rest ih =>
    by_cases h : (trimStr st).isEmpty
    · simp [applyStmtsMySQL, h, ih]
    · simp [applyStmtsMySQL, h, hok (trimStr st), ih]

/-- The migration statement list is already filtered, so the loop's own
emptiness filter is idempotent on it. -/
theorem migStatements_filter (sql : Str) :
    (migStatements sql).filter (fun s => !(trimStr s).isEmpty) = migStatements sql := by
  unfold migStatements
  rw [List.filter_filter]
  simp

/-- With an all-success engine, one migration dispatches exactly its trimmed
statement list. -/
theorem applyStmts_mig (outcome : ExecOracle) (hok : ∀ s, outcome s = none) (sql : Str) :
    applyStmtsMySQL outcome (migStatements sql) = (migDispatched sql, none) := by
  rw [applyStmts_success outcome hok, migStatements_filter]
  rfl

/-- Trace filtering distributes over appends. -/
theorem traceFor_append (n : Nat) (tr1 tr2 : List (Nat × Str)) :
    traceFor n (tr1 ++ tr2) = traceFor n tr1 ++ traceFor n tr2 := by
  simp [traceFor]

/-- Entries tagged with a different migration number never land in a
number's trace. -/
theorem traceFor_other (n m : Nat) (h : m ≠ n) (ss : List Str) :
    traceFor n (ss.map fun s => (m, s)) = [] := by
  simp [traceFor, h]

/-- A number recorded in the loaded snapshot gains no trace entries during a
run: its file is skipped, and no other file can add entries under its
number. -/
theorem go_skip_trace (outcome : ExecOracle) (applied : List Nat) (n : Nat)
    (hn : n ∈ applied) :
    ∀ (files : List MigFile) (st : RunState),
      traceFor n (runMigrationsGo outcome applied files st).1.trace
        = traceFor n st.trace := by
  intro files
  induction files with
  | nil => intro st; rfl
  | cons f rest ih =>
    intro st
    by_cases hf : f.number ∈ applied
    · simp only [runMigrationsGo, if_pos hf]
      exact ih st
    · have hne : f.number ≠ n := fun h => hf (h ▸ hn)
      simp only [runMigrationsGo, if_neg hf]
      cases hp : (applyStmtsMySQL outcome (migStatements f.sql)).2 with
      | some e =>
        simp [hp, traceFor_append, traceFor_other n f.number hne]
      | none =>
        simp [hp, ih, traceFor_append, traceFor_other n f.number hne]

/-- Files whose numbers are all in the snapshot are all skipped: the run is
a no-op. -/
theorem go_all_applied (outcome : ExecOracle) (applied : List Nat) :
    ∀ (files : List MigFile) (st : RunState),
      (∀ f ∈ files, f.number ∈ applied) →
      runMigrationsGo outcome applied files st = (st, none) := by
  intro files
  induction files with
  | nil => intro st _; rfl
  | cons f rest ih =>
    intro st h
    have hf : f.number ∈ applied := h f (by simp)
    simp only [runMigrationsGo, if_pos hf]
    exact ih st fun g hg => h g (by simp [hg])

/-- With an all-success engine, a run over entirely fresh files applies each
file once in order: one bookkeeping row and one block of trace entries per
file. -/
theorem go_fresh (outcome : ExecOracle) (hok : ∀ s, outcome s = none)
    (applied : List Nat) :
    ∀ (files : List MigFile) (st : RunState),
      (∀ f ∈ files, f.number ∉ applied) →
      runMigrationsGo outcome applied files st
        = ({ bookkeeping := st.bookkeeping ++ files.map MigFile.number,
             trace := st.trace
               ++ files.flatMap fun f => (migDispatched f.sql).map fun s => (f.number, s) },
           none) := by
  intro files
  induction files with
  | nil =>
    intro st _
    simp only [List.map_nil, List.append_nil, List.flatMap_nil]
    rfl
  | cons f rest ih =>
    intro st h
    have hf : f.number ∉ applied := h f (by simp)
    simp only [runMigrationsGo, if_neg hf, applyStmts_mig outcome hok]
    rw [ih _ fun g hg => h g (by simp [hg])]
    simp

/-- C1: a migration number already recorded in the bookkeeping table is
skipped without re-executing any of its SQL (its dispatch trace is
unchanged by a whole run); and on an initially empty database with an
all-success engine and distinct migration numbers, running the Migration
Runner twice back-to-back dispatches each file's statements exactly once,
leaves exactly one bookkeeping row per migration number, and makes the
second run a complete no-op. -/
theorem c1_runner_idempotent_skip :
    (∀ (outcome : ExecOracle) (files : List MigFile) (st : RunState) (n : Nat),
      n ∈ st.bookkeeping →
      traceFor n (runMigrations outcome files st).1.trace = traceFor n st.trace)
    ∧ (∀ (outcome : ExecOracle) (files : List MigFile),
        (∀ s, outcome s = none) →
        (files.map MigFile.number).Nodup →
        (runMigrations outcome files emptyDb).2 = none
        ∧ (runMigrations outcome files emptyDb).1.bookkeeping
          = files.map MigFile.number
        ∧ (runMigrations outcome files emptyDb).1.trace
          = (files.flatMap fun f => (migDispatched f.sql).map fun s => (f.number, s))
        ∧ runMigrations outcome files (runMigrations outcome files emptyDb).1
          = ((runMigrations outcome files emptyDb).1, none)
        ∧ ∀ n ∈ files.map MigFile.number,
            (runMigrations outcome files emptyDb).1.bookkeeping.count n = 1) := by
  constructor
  · intro outcome files st n hn
    exact go_skip_trace outcome st.bookkeeping n hn files st
  · intro outcome files hok hnodup
    have hfresh : runMigrations outcome files emptyDb
        = ({ bookkeeping := files.map MigFile.number,
             trace := files.flatMap fun f =>
               (migDispatched f.sql).map fun s => (f.number, s) }, none) := by
      unfold runMigrations emptyDb
      rw [go_fresh outcome hok [] files _ (by simp)]
      simp
    refine ⟨by rw [hfresh], by rw [hfresh], by rw [hfresh], ?_, ?_⟩
    · rw [hfresh]
      exact go_all_applied outcome _ files _ fun f hf =>
        List.mem_map_of_mem MigFile.number hf
    · intro n hn
      rw [hfresh]
      exact List.count_eq_one_of_mem hnodup hn

/-- C1 witness: the idempotency theorem applied to a concrete two-file set
on an all-success engine. -/
theorem c1_witness :
    (runMigrations (fun _ => none)
        [⟨1, migUniqueEmail⟩, ⟨2, migMultiUnique⟩] emptyDb).1.bookkeeping = [1, 2]
    ∧ (runMigrations (fun _ => none) [⟨1, migUniqueEmail⟩, ⟨2, migMultiUnique⟩]
        (runMigrations (fun _ => none)
          [⟨1, migUniqueEmail⟩, ⟨2, migMultiUnique⟩] emptyDb).1).2 = none
    ∧ traceFor 7 (runMigrations (fun _ => none) [⟨1, migUniqueEmail⟩]
        { bookkeeping := [7], trace := [] }).1.trace = [] := by
  obtain ⟨hskip, hrun⟩ := c1_runner_idempotent_skip
  obtain ⟨h1, h2, h3, h4, h5⟩ :=
    hrun (fun _ => none) [⟨1, migUniqueEmail⟩, ⟨2, migMultiUnique⟩]
      (fun _ => rfl) (by decide)
  refine ⟨h2, by rw [h4], ?_⟩
  have := hskip (fun _ => none) [⟨1, migUniqueEmail⟩]
    { bookkeeping := [7], trace := [] } 7 (by decide)
  simpa [traceFor] using this

/-- When the statement loop dispatched nothing, it also reported no error. -/
theorem applyStmts_nil_of_empty (outcome : ExecOracle) :
    ∀ stmts : List Str,
      (applyStmtsMySQL outcome stmts).1 = [] → (applyStmtsMySQL outcome stmts).2 = none := by
  intro stmts
  induction stmts with
  | nil => intro _; rfl
  | cons st rest ih =>
    intro h
    by_cases hemp : (trimStr st).isEmpty
    · simp only [applyStmtsMySQL, if_pos hemp] at h ⊢
      exact ih h
    · cases ho : outcome (trimStr st) with
      | none =>
        simp only [applyStmtsMySQL, if_neg hemp, ho] at h
        simp at h
      | some e =>
        by_cases hidx : isCreateIndexStmt st
        · by_cases hdup : e.code = some "ER_DUP_KEYNAME" ∨ e.errno = some 1061
          · simp only [applyStmtsMySQL, if_neg hemp, ho, if_pos hidx, if_pos hdup] at h
            simp at h
          · simp only [applyStmtsMySQL, if_neg hemp, ho, if_pos hidx, if_neg hdup] at h
            simp at h
        · by_cases halt : isAlterAddColumnStmt st
          · by_cases hdup : e.code = some "ER_DUP_FIELDNAME" ∨ e.errno = some 1060
            · simp only [applyStmtsMySQL, if_neg hemp, ho, if_neg hidx, if_pos halt,
                if_pos hdup] at h
              simp at h
            · simp only [applyStmtsMySQL, if_neg hemp, ho, if_neg hidx, if_pos halt,
                if_neg hdup] at h
              simp at h
          · simp only [applyStmtsMySQL, if_neg hemp, ho, if_neg hidx, if_neg halt] at h
            simp at h

/-- Aborting run: all files before the failing one are skipped (their
numbers are in the snapshot), the failing file's non-benign error surfaces
with its number, the bookkeeping table is unchanged, and no statement of any
later file is dispatched. -/
theorem go_abort (outcome : ExecOracle) (applied : List Nat) :
    ∀ (pre : List MigFile) (f : MigFile) (post : List MigFile) (st : RunState)
      (e : SqlError),
      (∀ g ∈ pre, g.number ∈ applied) → f.number ∉ applied →
      (applyStmtsMySQL outcome (migStatements f.sql)).2 = some e →
      runMigrationsGo outcome applied (pre ++ f :: post) st
        = ({ st with trace := st.trace
              ++ tagTrace f.number (applyStmtsMySQL outcome (migStatements f.sql)).1 },
           some (f.number, e)) := by
  intro pre
  induction pre with
  | nil =>
    intro f post st e _ hf hp
    simp only [List.nil_append, runMigrationsGo, if_neg hf, hp, tagTrace]
  | cons g pres ih =>
    intro f post st e hpre hf hp
    have hg : g.number ∈ applied := hpre g (by simp)
    simp only [List.cons_append, runMigrationsGo, if_pos hg]
    exact ih f post st e (fun g' hg' => hpre g' (by simp [hg'])) hf hp

/-- C2: while applying a migration on the MySQL path, an engine error is
treated as success-no-op — the loop keeps the dispatch and continues with
the remaining statements — exactly when it is a duplicate-column error
(ER_DUP_FIELDNAME / errno 1060) on an ALTER TABLE ADD COLUMN statement or a
duplicate-key error (ER_DUP_KEYNAME / errno 1061) on a CREATE INDEX
statement (first part, for statements matching at most one classifier, as
every real statement does); every other error aborts the run with the
failing migration's number surfaced, the bookkeeping table unchanged, and no
statement of any later migration file attempted (second part). -/
theorem c2_benign_error_classification :
    (∀ (outcome : ExecOracle) (st : Str) (rest : List Str) (e : SqlError),
      (trimStr st).isEmpty = false →
      outcome (trimStr st) = some e →
      ¬(isCreateIndexStmt st = true ∧ isAlterAddColumnStmt st = true) →
      (((applyStmtsMySQL outcome (st :: rest)).2 = (applyStmtsMySQL outcome rest).2
        ∧ (applyStmtsMySQL outcome (st :: rest)).1
          = trimStr st :: (applyStmtsMySQL outcome rest).1)
       ↔ ((isAlterAddColumnStmt st = true
            ∧ (e.code = some "ER_DUP_FIELDNAME" ∨ e.errno = some 1060))
          ∨ (isCreateIndexStmt st = true
            ∧ (e.code = some "ER_DUP_KEYNAME" ∨ e.errno = some 1061)))))
    ∧ (∀ (outcome : ExecOracle) (pre : List MigFile) (f : MigFile)
        (post : List MigFile) (st : RunState) (e : SqlError),
        (∀ g ∈ pre, g.number ∈ st.bookkeeping) →
        f.number ∉ st.bookkeeping →
        (applyStmtsMySQL outcome (migStatements f.sql)).2 = some e →
        runMigrations outcome (pre ++ f :: post) st
          = ({ st with trace := st.trace
                ++ tagTrace f.number (applyStmtsMySQL outcome (migStatements f.sql)).1 },
             some (f.number, e))) := by
  constructor
  · intro outcome st rest e hemp hout hnot
    have hnil := applyStmts_nil_of_empty outcome rest
    simp only [applyStmtsMySQL, if_neg (by simp [hemp] : ¬(trimStr st).isEmpty = true),
      hout]
    by_cases hidx : isCreateIndexStmt st
    · have halt : ¬isAlterAddColumnStmt st = true := fun h => hnot ⟨hidx, h⟩
      simp only [if_pos hidx]
      by_cases hdup : e.code = some "ER_DUP_KEYNAME" ∨ e.errno = some 1061
      · simp only [if_pos hdup]
        simp [hidx, hdup, halt]
      · simp only [if_neg hdup]
        constructor
        · rintro ⟨h2, h1⟩
          exfalso
          have : (applyStmtsMySQL outcome rest).1 = [] := by
            cases h' : (applyStmtsMySQL outcome rest).1 with
            | nil => rfl
            | cons a l => rw [h'] at h1; simp at h1
          rw [hnil this] at h2
          cases h2
        · rintro (⟨h, _⟩ | ⟨_, h⟩)
          · exact absurd h halt
          · exact absurd h hdup
    · simp only [if_neg hidx]
      by_cases halt : isAlterAddColumnStmt st
      · simp only [if_pos halt]
        by_cases hdup : e.code = some "ER_DUP_FIELDNAME" ∨ e.errno = some 1060
        · simp only [if_pos hdup]
          simp [hidx, hdup, halt]
        · simp only [if_neg hdup]
          constructor
          · rintro ⟨h2, h1⟩
            exfalso
            have : (applyStmtsMySQL outcome rest).1 = [] := by
              cases h' : (applyStmtsMySQL outcome rest).1 with
              | nil => rfl
              | cons a l => rw [h'] at h1; simp at h1
            rw [hnil this] at h2
            cases h2
          · rintro (⟨_, h⟩ | ⟨h, _⟩)
            · exact absurd h hdup
            · exact absurd h hidx
      · simp only [if_neg halt]
        constructor
        · rintro ⟨h2, h1⟩
          exfalso
          have : (applyStmtsMySQL outcome rest).1 = [] := by
            cases h' : (applyStmtsMySQL outcome rest).1 with
            | nil => rfl
            | cons a l => rw [h'] at h1; simp at h1
          rw [hnil this] at h2
          cases h2
        · rintro (⟨h, _⟩ | ⟨h, _⟩)
          · exact absurd h halt
          · exact absurd h hidx
  · intro outcome pre f post st e hpre hf hp
    exact go_abort outcome st.bookkeeping pre f post st e hpre hf hp

/-- C2 witness: the classification theorem applied at a concrete benign
duplicate-key error on a CREATE INDEX statement, and at a concrete fatal
parse error that aborts the run surfacing the failing migration number. -/
theorem c2_witness :
    ((applyStmtsMySQL (fun _ => some ⟨some "ER_DUP_KEYNAME", some 1061⟩)
        ["CREATE INDEX i ON t(a)".data]).2 = none)
    ∧ runMigrations (fun _ => some ⟨some "ER_PARSE_ERROR", some 1064⟩)
        [⟨3, "SELECT broken FROM;".data⟩] emptyDb
      = ({ bookkeeping := [], trace := [(3, "SELECT broken FROM".data)] },
         some (3, ⟨some "ER_PARSE_ERROR", some 1064⟩)) := by
  obtain ⟨ha, hb⟩ := c2_benign_error_classification
  constructor
  · have h := ha (fun _ => some ⟨some "ER_DUP_KEYNAME", some 1061⟩)
      ("CREATE INDEX i ON t(a)".data) [] ⟨some "ER_DUP_KEYNAME", some 1061⟩
      (by decide) rfl (by decide)
    have h2 := h.mpr (Or.inr ⟨by decide, Or.inl rfl⟩)
    rw [h2.1]
    rfl
  · have h := hb (fun _ => some ⟨some "ER_PARSE_ERROR", some 1064⟩)
      [] ⟨3, "SELECT broken FROM;".data⟩ [] emptyDb
      ⟨some "ER_PARSE_ERROR", some 1064⟩ (by simp) (by decide) (by decide)
    rw [List.nil_append] at h
    rw [h]
    decide

/-- A word character is never a whitespace character. -/
theorem wordNotSpace (c : Char) (h : isWordC c = true) : isSpaceC c = false := by
  cases hs : isSpaceC c with
  | false => rfl
  | true =>
    exfalso
    have hs' : c = ' ' ∨ c = '\t' ∨ c = '\n' ∨ c = '\r' := by
      simpa [isSpaceC, decide_eq_true_eq] using hs
    rcases hs' with rfl | rfl | rfl | rfl <;> simp [isWordC] at h

/-- Dropping whitespace stops at a word character. -/
theorem dropWhile_word_head (c : Char) (h : isWordC c = true) (l : Str) :
    List.dropWhile isSpaceC (c :: l) = c :: l := by
  simp [List.dropWhile_cons, wordNotSpace c h]

/-- The word splitter captures exactly an all-word run terminated by a
non-word character. -/
theorem wordSplit_concat :
    ∀ (w : Str) (c : Char) (r : Str), (∀ x ∈ w, isWordC x = true) →
      isWordC c = false → wordSplit (w ++ c :: r) = (w, c :: r) := by
  intro w
  induction w with
  | nil => intro c r _ hc; simp [wordSplit, hc]
  | cons x xs ih =>
    intro c r hw hc
    have hx : isWordC x = true := hw x (by simp)
    simp [wordSplit, hx, ih c r (fun y hy => hw y (by simp [hy])) hc]

/-- The word-capture scanner on an all-word run terminated by a non-word
character. -/
theorem word1_concat (w : Str) (c : Char) (r : Str) (hne : w ≠ [])
    (hw : ∀ x ∈ w, isWordC x = true) (hc : isWordC c = false) :
    word1 (w ++ c :: r) = some (w, c :: r) := by
  unfold word1
  rw [wordSplit_concat w c r hw hc]
  match w, hne with
  | x :: xs, _ => rfl

/-- The lazy capture consumes exactly up to a final semicolon when the body
has no semicolon and no newline. -/
theorem lazyToSemi_shaped :
    ∀ b : Str, ';' ∉ b → '\n' ∉ b →
      restCapture.lazyToSemi (b ++ [';']) = some (b, [';']) := by
  intro b
  induction b with
  | nil => intro _ _; rfl
  | cons x xs ih =>
    intro h1 h2
    have hx1 : ¬x = ';' := fun h => h1 (h ▸ List.mem_cons_self x xs)
    have hx2 : ¬x = '\n' := fun h => h2 (h ▸ List.mem_cons_self x xs)
    simp only [List.cons_append, restCapture.lazyToSemi, if_neg hx1, if_neg hx2,
      List.append_eq]
    rw [ih (fun h => h1 (List.mem_cons_of_mem x h))
        (fun h => h2 (List.mem_cons_of_mem x h))]
    rfl

/-- The whitespace splitter is a decomposition of its input. -/
theorem wsTake_parts : ∀ s : Str, (wsTake s).1 ++ (wsTake s).2 = s := by
  intro s
  induction s with
  | nil => rfl
  | cons c cs ih =>
    by_cases hc : isSpaceC c
    · simp [wsTake, hc, ih]
    · simp [wsTake, hc]

/-- Appending a semicolon extends only the non-whitespace part of the
whitespace split. -/
theorem wsTake_append_semi :
    ∀ s : Str, wsTake (s ++ [';']) = ((wsTake s).1, (wsTake s).2 ++ [';']) := by
  intro s
  induction s with
  | nil => rfl
  | cons c cs ih =>
    by_cases hc : isSpaceC c
    · simp [wsTake, hc, ih]
    · simp [wsTake, hc]

/-- The tail-capture scanner on a whitespace-led body terminated by a
semicolon. -/
theorem restCapture_shaped (body : Str) (h1 : ';' ∉ body) (h2 : '\n' ∉ body) :
    restCapture (' ' :: body ++ [';']) = some (' ' :: body, [';']) := by
  have hsp : isSpaceC ' ' = true := by decide
  have hmem : ∀ x ∈ (wsTake (' ' :: body)).2, x ∈ ' ' :: body := by
    intro x hx
    rw [← wsTake_parts (' ' :: body)]
    exact List.mem_append_right _ hx
  have hs1 : ';' ∉ (wsTake (' ' :: body)).2 := by
    intro hx
    rcases List.mem_cons.mp (hmem _ hx) with h | h
    · cases h
    · exact h1 h
  have hs2 : '\n' ∉ (wsTake (' ' :: body)).2 := by
    intro hx
    rcases List.mem_cons.mp (hmem _ hx) with h | h
    · cases h
    · exact h2 h
  have key : wsTake ((' ' :: body) ++ [';'])
      = ((wsTake (' ' :: body)).1, (wsTake (' ' :: body)).2 ++ [';']) :=
    wsTake_append_semi (' ' :: body)
  simp only [restCapture, hsp, if_pos, List.cons_append] at key ⊢
  rw [key, lazyToSemi_shaped _ hs1 hs2]
  simp only [Option.map_some']
  rw [wsTake_parts (' ' :: body)]

/-- The consumed text of a match that leaves exactly the final semicolon. -/
theorem consumedBy_semi (xs : Str) : consumedBy (xs ++ [';']) [';'] = xs := by
  unfold consumedBy
  have h : (xs ++ [';']).length - ([';'] : Str).length = xs.length := by simp
  rw [h, List.take_left]

/-- The reserved-word escape scanner on a canonical single-statement ALTER
TABLE ADD COLUMN input: it matches the whole statement up to the semicolon
and applies the escape callback. -/
theorem tryAlterEscape_shaped (tbl col body : Str)
    (htbl : tbl ≠ []) (htblw : ∀ c ∈ tbl, isWordC c = true)
    (hcol : col ≠ []) (hcolw : ∀ c ∈ col, isWordC c = true)
    (hb1 : ';' ∉ body) (hb2 : '\n' ∉ body) :
    tryAlterEscape
        ("ALTER TABLE ".data ++ tbl ++ " ADD COLUMN ".data ++ col ++ ' ' :: body ++ [';'])
      = some (alterEscapeRepl
          ("ALTER TABLE ".data ++ tbl ++ " ADD COLUMN ".data ++ col ++ ' ' :: body)
          tbl col (' ' :: body), [';']) := by
  have hsp : isWordC ' ' = false := by decide
  have halter : ∀ X : Str,
      litCI "alter".data ("ALTER TABLE ".data ++ X)
        = some (" TABLE ".data ++ X) := fun X => rfl
  have hws1 : ∀ X : Str,
      ws1 (" TABLE ".data ++ X) = some ("TABLE ".data ++ X) := fun X => rfl
  have htable : ∀ X : Str,
      litCI "table".data ("TABLE ".data ++ X) = some (' ' :: X) := fun X => rfl
  have hws2 : ws1 (' ' :: (tbl ++ (" ADD COLUMN ".data ++ col ++ ' ' :: body ++ [';'])))
      = some (tbl ++ (" ADD COLUMN ".data ++ col ++ ' ' :: body ++ [';'])) := by
    match tbl, htbl with
    | c0 :: tl, _ =>
      have hc0 : isWordC c0 = true := htblw c0 (by simp)
      show some (List.dropWhile isSpaceC
        (c0 :: (tl ++ (" ADD COLUMN ".data ++ col ++ ' ' :: body ++ [';'])))) = _
      rw [dropWhile_word_head c0 hc0]
      rfl
  have hword1 : word1 (tbl ++ (" ADD COLUMN ".data ++ col ++ ' ' :: body ++ [';']))
      = some (tbl, " ADD COLUMN ".data ++ col ++ ' ' :: body ++ [';']) := by
    have : " ADD COLUMN ".data ++ col ++ ' ' :: body ++ [';']
        = ' ' :: ("ADD COLUMN ".data ++ col ++ ' ' :: body ++ [';']) := rfl
    rw [this]
    exact word1_concat tbl ' ' _ htbl htblw hsp
  have htblstep : tryAlterTbl
      ("ALTER TABLE ".data ++ tbl ++ " ADD COLUMN ".data ++ col ++ ' ' :: body ++ [';'])
      = some (tbl, " ADD COLUMN ".data ++ col ++ ' ' :: body ++ [';']) := by
    unfold tryAlterTbl
    rw [show "ALTER TABLE ".data ++ tbl ++ " ADD COLUMN ".data ++ col ++ ' ' :: body ++ [';']
        = "ALTER TABLE ".data ++ (tbl ++ (" ADD COLUMN ".data ++ col ++ ' ' :: body ++ [';']))
      from by simp [List.append_assoc]]
    rw [halter, Option.some_bind, hws1, Option.some_bind, htable, Option.some_bind,
      hws2, Option.some_bind, hword1]
  have hws3 : ws1 (" ADD COLUMN ".data ++ col ++ ' ' :: body ++ [';'])
      = some ("ADD COLUMN ".data ++ col ++ ' ' :: body ++ [';']) := rfl
  have hadd : litCI "add".data ("ADD COLUMN ".data ++ col ++ ' ' :: body ++ [';'])
      = some (" COLUMN ".data ++ col ++ ' ' :: body ++ [';']) := rfl
  have hws4 : ws1 (" COLUMN ".data ++ col ++ ' ' :: body ++ [';'])
      = some ("COLUMN ".data ++ col ++ ' ' :: body ++ [';']) := rfl
  have hcolumn : litCI "column".data ("COLUMN ".data ++ col ++ ' ' :: body ++ [';'])
      = some (' ' :: (col ++ ' ' :: body ++ [';'])) := rfl
  have hws5 : ws1 (' ' :: (col ++ ' ' :: body ++ [';']))
      = some (col ++ ' ' :: body ++ [';']) := by
    match col, hcol with
    | c0 :: tl, _ =>
      have hc0 : isWordC c0 = true := hcolw c0 (by simp)
      show some (List.dropWhile isSpaceC (c0 :: (tl ++ ' ' :: body ++ [';']))) = _
      rw [dropWhile_word_head c0 hc0]
      rfl
  have hword2 : word1 (col ++ ' ' :: body ++ [';'])
      = some (col, ' ' :: body ++ [';']) := by
    rw [List.append_assoc, List.cons_append]
    exact word1_concat col ' ' (body ++ [';']) hcol hcolw hsp
  have hcolstep : tryAddCol (" ADD COLUMN ".data ++ col ++ ' ' :: body ++ [';'])
      = some (col, ' ' :: body ++ [';']) := by
    unfold tryAddCol
    rw [hws3, Option.some_bind, hadd, Option.some_bind, hws4, Option.some_bind,
      hcolumn, Option.some_bind, hws5, Option.some_bind, hword2]
  have hrest : restCapture (' ' :: body ++ [';']) = some (' ' :: body, [';']) :=
    restCapture_shaped body hb1 hb2
  have hcons : consumedBy
      ("ALTER TABLE ".data ++ tbl ++ " ADD COLUMN ".data ++ col ++ ' ' :: body ++ [';'])
      [';']
      = "ALTER TABLE ".data ++ tbl ++ " ADD COLUMN ".data ++ col ++ ' ' :: body := by
    have hsplit : "ALTER TABLE ".data ++ tbl ++ " ADD COLUMN ".data ++ col ++ ' ' :: body ++ [';']
        = ("ALTER TABLE ".data ++ tbl ++ " ADD COLUMN ".data ++ col ++ ' ' :: body) ++ [';'] := by
      simp [List.append_assoc]
    rw [hsplit]
    exact consumedBy_semi _
  unfold tryAlterEscape
  rw [htblstep, Option.some_bind, hcolstep, Option.some_bind, hrest, Option.map_some']
  rw [hcons]

/-- Fuel is irrelevant on an empty input. -/
theorem replaceScan_nil (f : Str → Option (Str × Str)) :
    ∀ k, replaceScan f k [] = [] := by
  intro k
  cases k <;> rfl

/-- The escape scan leaves a lone trailing semicolon unchanged. -/
theorem replaceScan_semi : ∀ k, replaceScan tryAlterEscape k [';'] = [';'] := by
  intro k
  cases k with
  | zero => rfl
  | succ n =>
    have h : tryAlterEscape [';'] = none := rfl
    simp [replaceScan, h, replaceScan_nil]

/-- One scan step over a matched head. -/
theorem replaceScan_head (f : Str → Option (Str × Str)) (m : Nat) (c : Char)
    (cs repl rest : Str) (h : f (c :: cs) = some (repl, rest)) :
    replaceScan f (m + 1) (c :: cs) = repl ++ replaceScan f m rest := by
  simp [replaceScan, h]

/-- C7: on a canonical single-statement ALTER TABLE ADD COLUMN migration,
the reserved-word escape quotes the column name in backticks exactly when
its lower-cased form is in the fixed reserved list, and leaves the statement
unchanged otherwise; instantiated end-to-end, the full MySQL translation
quotes the reserved column name repeat and leaves the non-reserved column
name notes unquoted. -/
theorem c7_reserved_word_quoting :
    (∀ (tbl col body : Str), tbl ≠ [] → (∀ c ∈ tbl, isWordC c = true) →
      col ≠ [] → (∀ c ∈ col, isWordC c = true) →
      ';' ∉ body → '\n' ∉ body →
      escapeReservedAlter
          ("ALTER TABLE ".data ++ tbl ++ " ADD COLUMN ".data ++ col ++ ' ' :: body ++ [';'])
        = (if col.map lowerC ∈ reservedKeywords then
            "ALTER TABLE ".data ++ tbl ++ " ADD COLUMN ".data
              ++ btick :: col ++ btick :: ' ' :: body ++ [';']
          else
            "ALTER TABLE ".data ++ tbl ++ " ADD COLUMN ".data ++ col ++ ' ' :: body ++ [';']))
    ∧ mysqlTranslate "ALTER TABLE tasks ADD COLUMN repeat TEXT;".data
      = ("ALTER TABLE tasks ADD COLUMN ".data ++ btick :: "repeat".data
          ++ btick :: " TEXT;".data)
    ∧ mysqlTranslate "ALTER TABLE tasks ADD COLUMN notes TEXT;".data
      = "ALTER TABLE tasks ADD COLUMN notes TEXT;".data := by
  refine ⟨?_, by decide, by decide⟩
  intro tbl col body htbl htblw hcol hcolw hb1 hb2
  have hmatch := tryAlterEscape_shaped tbl col body htbl htblw hcol hcolw hb1 hb2
  have hconsform :
      "ALTER TABLE ".data ++ tbl ++ " ADD COLUMN ".data ++ col ++ ' ' :: body ++ [';']
      = 'A' :: ("LTER TABLE ".data ++ tbl ++ " ADD COLUMN ".data ++ col ++ ' ' :: body ++ [';']) := rfl
  unfold escapeReservedAlter replaceAll
  rw [hconsform]
  rw [hconsform] at hmatch
  rw [List.length_cons]
  rw [replaceScan_head tryAlterEscape _ _ _ _ _ hmatch]
  rw [replaceScan_semi]
  rw [← hconsform]
  unfold alterEscapeRepl
  by_cases hres : col.map lowerC ∈ reservedKeywords
  · rw [if_pos hres, if_pos hres]
  · rw [if_neg hres, if_neg hres]

/-- C7 witness: the quoting theorem applied to concrete reserved and
non-reserved column names. -/
theorem c7_witness :
    escapeReservedAlter
        ("ALTER TABLE ".data ++ "tasks".data ++ " ADD COLUMN ".data
          ++ "repeat".data ++ ' ' :: "TEXT".data ++ [';'])
      = ("ALTER TABLE ".data ++ "tasks".data ++ " ADD COLUMN ".data
          ++ btick :: "repeat".data ++ btick :: ' ' :: "TEXT".data ++ [';'])
    ∧ escapeReservedAlter
        ("ALTER TABLE ".data ++ "tasks".data ++ " ADD COLUMN ".data
          ++ "notes".data ++ ' ' :: "TEXT".data ++ [';'])
      = ("ALTER TABLE ".data ++ "tasks".data ++ " ADD COLUMN ".data
          ++ "notes".data ++ ' ' :: "TEXT".data ++ [';']) := by
  obtain ⟨h, _, _⟩ := c7_reserved_word_quoting
  constructor
  · rw [h ("tasks".data) ("repeat".data) ("TEXT".data) (by decide) (by decide)
      (by decide) (by decide) (by decide) (by decide)]
    decide
  · rw [h ("tasks".data) ("notes".data) ("TEXT".data) (by decide) (by decide)
      (by decide) (by decide) (by decide) (by decide)]
    decide

end FF
